import Mathlib

/-!
# Verification of `authorization_code_flow.py`

A shallow embedding of the OAuth2 authorization-code + on-behalf-of (OBO)
demonstration script `src/authorization_code_flow.py`, together with proofs
of the specification claims about it.

Modelling conventions:
* Python strings are `List Char` (`PyStr`) in the parsing layer and `String`
  in the configuration/session layer.
* `json.loads` / `json.dumps` (Python standard library collaborators) are
  modelled by an executable recursive-descent parser `jsonLoads` and
  serializer `dumps` over the `Json` AST below.  JSON numbers are modelled
  as integers: floating-point fraction/exponent forms are outside the
  embedding (no claim depends on them).
* Side-effecting calls (MSAL token calls, `requests` HTTP calls, `sys.exit`)
  become events in a trace; external responses are supplied by an
  environment record, so a "run" of `main` is the trace produced from one
  environment.
-/

/-- Python strings in the parsing layer. -/
abbrev PyStr := List Char

/-- Whitespace stripped by Python `str.strip()` (ASCII part):
space, tab, newline, carriage return, vertical tab, form feed. -/
def pySpace (c : Char) : Bool :=
  c.toNat = 32 || c.toNat = 9 || c.toNat = 10 || c.toNat = 13 ||
  c.toNat = 11 || c.toNat = 12

/-- Python `str.strip()`: drop leading and trailing whitespace. -/
def pyStrip (l : PyStr) : PyStr :=
  ((l.dropWhile pySpace).reverse.dropWhile pySpace).reverse

/-- Line-boundary characters recognised by Python `str.splitlines()`:
`\n`, `\r`, `\v`, `\f`, the file/group/record separators, next-line
(U+0085), and the Unicode line/paragraph separators (U+2028, U+2029);
`\r\n` is treated as a single boundary by `splitLinesAux`. -/
def pyLineBreak (c : Char) : Bool :=
  c.toNat = 10 || c.toNat = 13 || c.toNat = 11 || c.toNat = 12 ||
  c.toNat = 28 || c.toNat = 29 || c.toNat = 30 || c.toNat = 133 ||
  c.toNat = 8232 || c.toNat = 8233

/-- Worker for `splitLines`: `acc` holds the current line, reversed;
`\r\n` counts as one boundary. -/
def splitLinesAux (acc : PyStr) : PyStr → List PyStr
  | [] => if acc.isEmpty then [] else [acc.reverse]
  | c :: rest =>
    if c = '\r' then
      match rest with
      | [] => [acc.reverse]
      | c2 :: rest2 =>
        if c2 = '\n' then acc.reverse :: splitLinesAux [] rest2
        else acc.reverse :: splitLinesAux [] (c2 :: rest2)
    else if pyLineBreak c then acc.reverse :: splitLinesAux [] rest
    else splitLinesAux (c :: acc) rest

/-- Python `str.splitlines()`. -/
def splitLines (l : PyStr) : List PyStr := splitLinesAux [] l

/-! ## The JSON data model (Python `json` collaborator) -/

mutual

/-- A JSON value as produced by Python `json.loads`.  Numbers are modelled as
integers (see module comment); object member order is the textual order.
Arrays and objects carry their own list types (`JsonList`, `JsonFields`) so
every recursion over values is structural. -/
inductive Json where
  | null
  | bool (b : Bool)
  | num (n : Int)
  | str (s : PyStr)
  | arr (elems : JsonList)
  | obj (fields : JsonFields)
deriving DecidableEq

/-- A list of JSON values (a parsed array). -/
inductive JsonList where
  | nil
  | cons (hd : Json) (tl : JsonList)
deriving DecidableEq

/-- The key-value members of a parsed object, in textual order. -/
inductive JsonFields where
  | nil
  | cons (key : PyStr) (val : Json) (tl : JsonFields)
deriving DecidableEq

end

/-- Conversion for building array literals in statements. -/
def JsonList.ofList : List Json → JsonList
  | [] => .nil
  | x :: xs => .cons x (JsonList.ofList xs)

/-- The plain list of a `JsonList`. -/
def JsonList.toList : JsonList → List Json
  | .nil => []
  | .cons x xs => x :: JsonList.toList xs

/-- Conversion for building object literals in statements. -/
def JsonFields.ofList : List (PyStr × Json) → JsonFields
  | [] => .nil
  | (k, v) :: xs => .cons k v (JsonFields.ofList xs)

mutual

/-- Python `==` on JSON values (structural; dict comparison is modelled as
order-sensitive, which the claims never exercise on reordered dicts). -/
def jsonEq : Json → Json → Bool
  | .null, .null => true
  | .bool a, .bool b => a == b
  | .num a, .num b => a == b
  | .str a, .str b => a == b
  | .arr a, .arr b => jsonEqArr a b
  | .obj a, .obj b => jsonEqObj a b
  | _, _ => false

/-- Elementwise `jsonEq` on arrays. -/
def jsonEqArr : JsonList → JsonList → Bool
  | .nil, .nil => true
  | .cons a as_, .cons b bs => jsonEq a b && jsonEqArr as_ bs
  | _, _ => false

/-- Memberwise `jsonEq` on object field lists. -/
def jsonEqObj : JsonFields → JsonFields → Bool
  | .nil, .nil => true
  | .cons k1 v1 as_, .cons k2 v2 bs => k1 == k2 && jsonEq v1 v2 && jsonEqObj as_ bs
  | _, _ => false

end

/-- Python `in` over a list of JSON values (`choice not in tool_names`,
`param_name in required`). -/
def jsonMem (a : Json) (l : List Json) : Bool := l.any (fun b => jsonEq b a)

/-! ## `json.loads`: a recursive-descent parser -/

/-- Whitespace skipped by `json.loads` between tokens. -/
def jsonWs (c : Char) : Bool := c = ' ' || c = '\t' || c = '\n' || c = '\r'

/-- Skip inter-token whitespace. -/
def skipWs (l : PyStr) : PyStr := l.dropWhile jsonWs

/-- Value of one hexadecimal digit. -/
def hexVal (c : Char) : Option Nat :=
  if '0' ≤ c ∧ c ≤ '9' then some (c.toNat - '0'.toNat)
  else if 'a' ≤ c ∧ c ≤ 'f' then some (c.toNat - 'a'.toNat + 10)
  else if 'A' ≤ c ∧ c ≤ 'F' then some (c.toNat - 'A'.toNat + 10)
  else none

/-- Short escape sequences accepted after a backslash in a JSON string. -/
def escCharVal : Char → Option Char
  | '"' => some '"'
  | '\\' => some '\\'
  | '/' => some '/'
  | 'b' => some '\x08'
  | 'f' => some '\x0c'
  | 'n' => some '\n'
  | 'r' => some '\r'
  | 't' => some '\t'
  | _ => none

/-- Parse the body of a JSON string after the opening quote; returns the
decoded characters and the input after the closing quote.  Raw control
characters are rejected, as in strict-mode `json.loads`. -/
def parseStringBody : PyStr → Option (PyStr × PyStr)
  | [] => none
  | '"' :: rest => some ([], rest)
  | '\\' :: 'u' :: h1 :: h2 :: h3 :: h4 :: rest =>
    match hexVal h1, hexVal h2, hexVal h3, hexVal h4 with
    | some a, some b, some c, some d =>
      (parseStringBody rest).map
        (fun p => (Char.ofNat (((a * 16 + b) * 16 + c) * 16 + d) :: p.1, p.2))
    | _, _, _, _ => none
  | '\\' :: e :: rest =>
    match escCharVal e with
    | some c => (parseStringBody rest).map (fun p => (c :: p.1, p.2))
    | none => none
  | c :: rest =>
    if c.toNat < 0x20 then none
    else (parseStringBody rest).map (fun p => (c :: p.1, p.2))

/-- Digit run to a natural number. -/
def digitsToNat (ds : PyStr) : Nat :=
  ds.foldl (fun a c => a * 10 + (c.toNat - '0'.toNat)) 0

/-- Parse the integer part of a JSON number (JSON forbids leading zeros). -/
def parseNatPart : PyStr → Option (Nat × PyStr)
  | '0' :: rest => some (0, rest)
  | c :: rest =>
    if c.isDigit then
      some (digitsToNat ((c :: rest).takeWhile Char.isDigit),
            (c :: rest).dropWhile Char.isDigit)
    else none
  | [] => none

/-- Parse an optionally-signed JSON integer. -/
def parseIntPart : PyStr → Option (Int × PyStr)
  | '-' :: rest => (parseNatPart rest).map (fun p => (-(p.1 : Int), p.2))
  | l => (parseNatPart l).map (fun p => ((p.1 : Int), p.2))

mutual

/-- Parse one JSON value; `fuel` decreases on every recursive call. -/
def parseValue : Nat → PyStr → Option (Json × PyStr)
  | 0, _ => none
  | _ + 1, [] => none
  | fuel + 1, c :: rest =>
    if c = 'n' then
      match rest with
      | 'u' :: 'l' :: 'l' :: r => some (.null, r)
      | _ => none
    else if c = 't' then
      match rest with
      | 'r' :: 'u' :: 'e' :: r => some (.bool true, r)
      | _ => none
    else if c = 'f' then
      match rest with
      | 'a' :: 'l' :: 's' :: 'e' :: r => some (.bool false, r)
      | _ => none
    else if c = '"' then
      (parseStringBody rest).map (fun p => (.str p.1, p.2))
    else if c = '[' then
      match skipWs rest with
      | ']' :: r => some (.arr .nil, r)
      | l =>
        match parseValue fuel l with
        | some (v, r) =>
          match parseArrayRest fuel (skipWs r) with
          | some (vs, r2) => some (.arr (.cons v vs), r2)
          | none => none
        | none => none
    else if c = '{' then
      match skipWs rest with
      | '}' :: r => some (.obj .nil, r)
      | l =>
        match parseMember fuel l with
        | some (kv, r) =>
          match parseObjRest fuel (skipWs r) with
          | some (ms, r2) => some (.obj (.cons kv.1 kv.2 ms), r2)
          | none => none
        | none => none
    else if c = '-' ∨ c.isDigit then
      (parseIntPart (c :: rest)).map (fun p => (.num p.1, p.2))
    else none

/-- After one array element: a comma and another element, or the close. -/
def parseArrayRest : Nat → PyStr → Option (JsonList × PyStr)
  | 0, _ => none
  | fuel + 1, l =>
    match l with
    | ']' :: r => some (.nil, r)
    | ',' :: r =>
      match parseValue fuel (skipWs r) with
      | some (v, r2) =>
        match parseArrayRest fuel (skipWs r2) with
        | some (vs, r3) => some (.cons v vs, r3)
        | none => none
      | none => none
    | _ => none

/-- One `"key": value` member of an object. -/
def parseMember : Nat → PyStr → Option ((PyStr × Json) × PyStr)
  | 0, _ => none
  | fuel + 1, l =>
    match l with
    | '"' :: r =>
      match parseStringBody r with
      | some (k, r1) =>
        match skipWs r1 with
        | ':' :: r2 =>
          match parseValue fuel (skipWs r2) with
          | some (v, r3) => some ((k, v), r3)
          | none => none
        | _ => none
      | none => none
    | _ => none

/-- After one object member: a comma and another member, or the close. -/
def parseObjRest : Nat → PyStr → Option (JsonFields × PyStr)
  | 0, _ => none
  | fuel + 1, l =>
    match l with
    | '}' :: r => some (.nil, r)
    | ',' :: r =>
      match parseMember fuel (skipWs r) with
      | some (kv, r2) =>
        match parseObjRest fuel (skipWs r2) with
        | some (ms, r3) => some (.cons kv.1 kv.2 ms, r3)
        | none => none
      | none => none
    | _ => none

end

/-- Python `json.loads`: parse a complete document, requiring the whole
input to be consumed (up to whitespace); `none` models a raised
`JSONDecodeError`. -/
def jsonLoads (l : PyStr) : Option Json :=
  match parseValue (2 * l.length + 2) (skipWs l) with
  | some (v, rest) => if skipWs rest = [] then some v else none
  | none => none

/-! ## `json.dumps`: the serializer (default settings: `ensure_ascii=True`,
separator `", "` / `": "`) -/

/-- The character for one decimal digit (callers pass values below 10). -/
def digitChar : Nat → Char
  | 0 => '0' | 1 => '1' | 2 => '2' | 3 => '3' | 4 => '4'
  | 5 => '5' | 6 => '6' | 7 => '7' | 8 => '8' | 9 => '9'
  | _ => '0'

/-- The character for one hexadecimal digit (callers pass values below 16). -/
def hexDigitChar (n : Nat) : Char :=
  if n < 10 then digitChar n
  else if n = 10 then 'a' else if n = 11 then 'b' else if n = 12 then 'c'
  else if n = 13 then 'd' else if n = 14 then 'e' else 'f'

/-- Fuel-bounded worker for `natDigits`; `natDigits` passes enough fuel
that the `0` case is never reached. -/
def natDigitsAux : Nat → Nat → PyStr
  | 0, _ => []
  | fuel + 1, n =>
    if n < 10 then [digitChar n]
    else natDigitsAux fuel (n / 10) ++ [digitChar (n % 10)]

/-- Decimal digits of a natural number, most significant first. -/
def natDigits (n : Nat) : PyStr := natDigitsAux (n + 1) n

/-- Decimal rendering of an integer. -/
def intDigits (n : Int) : PyStr :=
  if n < 0 then '-' :: natDigits (-n).toNat else natDigits n.toNat

/-- Four hex digits of a value below `0x10000`. -/
def hex4 (n : Nat) : PyStr :=
  [hexDigitChar (n / 4096 % 16), hexDigitChar (n / 256 % 16),
   hexDigitChar (n / 16 % 16), hexDigitChar (n % 16)]

/-- How `json.dumps` renders one character inside a string literal:
short escapes, `\uXXXX` for other control or non-ASCII characters
(surrogate pairs above `0xFFFF`), the character itself otherwise. -/
def escapeChar (c : Char) : PyStr :=
  if c = '"' then ['\\', '"']
  else if c = '\\' then ['\\', '\\']
  else if c = '\n' then ['\\', 'n']
  else if c = '\r' then ['\\', 'r']
  else if c = '\t' then ['\\', 't']
  else if c = '\x08' then ['\\', 'b']
  else if c = '\x0c' then ['\\', 'f']
  else if c.toNat < 0x20 then '\\' :: 'u' :: hex4 c.toNat
  else if c.toNat < 0x7f then [c]
  else if c.toNat < 0x10000 then '\\' :: 'u' :: hex4 c.toNat
  else
    '\\' :: 'u' :: hex4 (0xd800 + (c.toNat - 0x10000) / 0x400) ++
      ('\\' :: 'u' :: hex4 (0xdc00 + (c.toNat - 0x10000) % 0x400))

/-- Escape every character of a string body. -/
def escString (s : PyStr) : PyStr := (s.map escapeChar).flatten

mutual

/-- Python `json.dumps` (default settings) over the `Json` model. -/
def dumps : Json → PyStr
  | .null => "null".toList
  | .bool true => "true".toList
  | .bool false => "false".toList
  | .num n => intDigits n
  | .str s => '"' :: (escString s ++ ['"'])
  | .arr l => '[' :: (dumpsArr l ++ [']'])
  | .obj l => '{' :: (dumpsObj l ++ ['}'])

/-- Array elements rendered and joined with the default `", "` separator. -/
def dumpsArr : JsonList → PyStr
  | .nil => []
  | .cons x .nil => dumps x
  | .cons x xs => dumps x ++ ',' :: ' ' :: dumpsArr xs

/-- Object members rendered as `"key": value`, comma-joined. -/
def dumpsObj : JsonFields → PyStr
  | .nil => []
  | .cons k v .nil => '"' :: (escString k ++ ['"', ':', ' ']) ++ dumps v
  | .cons k v xs =>
    ('"' :: (escString k ++ ['"', ':', ' ']) ++ dumps v) ++ ',' :: ' ' :: dumpsObj xs

end

/-! ## `parse_sse_or_json` (source lines 103-121) -/

/-- The SSE data marker. -/
def dataMarker : PyStr := "data:".toList

/-- The `for line in text.splitlines()` loop of `parse_sse_or_json`:
return the payload of the first stripped line that starts with `data:`
and whose remainder parses as JSON; `continue` past the rest. -/
def scanDataLines : List PyStr → Option Json
  | [] => none
  | l :: rest =>
    let l2 := pyStrip l
    if dataMarker.isPrefixOf l2 then
      match jsonLoads (pyStrip (l2.drop dataMarker.length)) with
      | some v => some v
      | none => scanDataLines rest
    else scanDataLines rest

/-- `parse_sse_or_json(resp)` from the source: strip the body, try
`json.loads` on the whole of it, otherwise scan the lines for a `data:`
payload, and fall back to `None`. -/
def parse_sse_or_json (body : PyStr) : Option Json :=
  let text := pyStrip body
  match jsonLoads text with
  | some v => some v
  | none => scanDataLines (splitLines text)

/-! ## Python string helpers for the `String`-typed layer -/

/-- Python `str.strip()` on `String`. -/
def pyStripS (s : String) : String := (pyStrip s.toList).asString

/-- Python `str.lower()` (ASCII model). -/
def pyLower (s : String) : String := (s.toList.map Char.toLower).asString

/-- Python `str.isdigit()` (ASCII model). -/
def pyIsDigit (s : String) : Bool := !s.isEmpty && s.toList.all Char.isDigit

/-- Python `int()` on an all-digit string. -/
def pyToNat (s : String) : Nat := digitsToNat s.toList

/-- Shorthand for a JSON string from a `String`. -/
def strJ (s : String) : Json := .str s.toList

/-! ## Configuration (source lines 34-50 and the sanity checks, 126-131) -/

/-- The environment-variable configuration surface of the script. -/
structure Config where
  tenantId : String
  clientId : String
  clientSecret : String
  redirectUri : String
  scope : String
  mcpScope : String
  resourceHost : String

/-- Python `str.startswith` on `String` (via the character lists). -/
def pyStartsWith (s pre : String) : Bool := pre.toList.isPrefixOf s.toList

/-- One entry of the sanity-check loop: `if not val or val.startswith("<")`. -/
def configValOk (v : String) : Bool := !(v == "" || pyStartsWith v "<")

/-- The sanity-check loop over the six checked settings (`MCP_SCOPE` is
deliberately not among them). -/
def configOk (c : Config) : Bool :=
  configValOk c.tenantId && configValOk c.clientId && configValOk c.clientSecret &&
  configValOk c.redirectUri && configValOk c.scope && configValOk c.resourceHost

/-! ## The callback listener handoff (source lines 55-90, 147-155) -/

/-- What one redirect request to the callback path carries: either an
`error` parameter (with its `error_description`, defaulting to
"Unknown error") or the optional `code` and `state` parameters. -/
inductive CbPayload where
  | err (desc : String)
  | ok (code : Option String) (st : Option String)

/-- The `_auth_code_bucket` shared dictionary. -/
structure Bucket where
  code : Option String
  state : Option String
  error : Option String

/-- The bucket before any callback was handled. -/
def emptyBucket : Bucket := ⟨none, none, none⟩

/-- How `CallbackHandler.do_GET` fills the bucket from one request. -/
def applyPayload : CbPayload → Bucket
  | .err d => { emptyBucket with error := some d }
  | .ok c s => { emptyBucket with code := c, state := s }

/-- `_code_received.wait(timeout=300)` followed by the bucket reads: the
bucket holds a payload iff one was delivered no later than the 300-second
bound (the model reads the bucket at the instant the wait ends, so a
delivery after the bound is indistinguishable from no delivery). -/
def bucketAfterWait (cb : Option (Nat × CbPayload)) : Bucket :=
  match cb with
  | some (t, p) => if t ≤ 300 then applyPayload p else emptyBucket
  | none => emptyBucket

/-! ## Scope discovery (source lines 186-215) -/

/-- How scope discovery can fail, each fatal (`sys.exit(1)`). -/
inductive DiscFail where
  | exception
  | status (code : Nat)
  | noApiScopes
deriving DecidableEq

/-- The generic OIDC scopes filtered out at source line 200. -/
def genericScope (s : String) : Bool :=
  s == "openid" || s == "profile" || s == "email" || s == "offline_access"

/-- The auto-discovery block: `none` for `metaResponse` models an exception
from `requests.get` or `.json()` (caught and fatal); otherwise the fetched
status code and the `scopes_supported` list (missing key gives `[]`).
Filters the generic scopes and takes the first survivor. -/
def discoverScope (metaResponse : Option (Nat × List String)) : Except DiscFail String :=
  match metaResponse with
  | none => .error .exception
  | some (status, scopes) =>
    if status = 200 then
      match scopes.filter (fun s => !genericScope s) with
      | [] => .error .noApiScopes
      | s :: _ => .ok s
    else .error (.status status)

/-! ## JSON access helpers used by step 4 (Python dict/list semantics) -/

/-- Python truthiness of a JSON value. -/
def jsonTruthy : Json → Bool
  | .null => false
  | .bool b => b
  | .num n => n != 0
  | .str s => !s.isEmpty
  | .arr .nil => false
  | .arr _ => true
  | .obj .nil => false
  | .obj _ => true

/-- Dictionary lookup on an object's fields (first match). -/
def fieldsFind : JsonFields → PyStr → Option Json
  | .nil, _ => none
  | .cons k v rest, key => if k == key then some v else fieldsFind rest key

/-- `j.get(k, dflt)`: `none` models the `AttributeError` raised when `j`
is not a dict. -/
def jsonGetD (j : Json) (k : PyStr) (dflt : Json) : Option Json :=
  match j with
  | .obj fields => some ((fieldsFind fields k).getD dflt)
  | _ => none

/-- `j[k]`: `none` models the `TypeError`/`KeyError` raised when `j` is
not a dict or lacks the key. -/
def jsonSub (j : Json) (k : PyStr) : Option Json :=
  match j with
  | .obj fields => fieldsFind fields k
  | _ => none

/-- `tools_result.get("result", {}).get("tools", [])`. -/
def extractToolsJson (r : Json) : Option Json := do
  let res ← jsonGetD r "result".toList (.obj .nil)
  jsonGetD res "tools".toList (.arr .nil)

/-- Worker for `toolNamesOf` over the elements. -/
def toolNamesOfList : JsonList → Option (List Json)
  | .nil => some []
  | .cons t rest => do
    let n ← jsonSub t "name".toList
    let ns ← toolNamesOfList rest
    pure (n :: ns)

/-- `[t["name"] for t in tools]`: every element must carry a `name` and the
container must be a list, else the comprehension raises (`none`). -/
def toolNamesOf (tools : Json) : Option (List Json) :=
  match tools with
  | .arr ts => toolNamesOfList ts
  | _ => none

/-! ## The interactive tool loop (source lines 297-377) -/

/-- The console inputs consumed by one loop iteration: the tool choice and
the per-parameter answers, in prompt order (a missing answer reads as the
empty string). -/
structure IterInput where
  choice : String
  vals : List String

/-- The two `continue`-and-print local rejections inside the loop. -/
inductive LocalErr where
  | invalidNumber
  | unknownTool
deriving DecidableEq

/-- The outcome of one loop iteration, up to the decision whether a
`tools/call` request goes on the wire. -/
inductive IterOut where
  | quit
  | localErr (e : LocalErr)
  | crash
  | send (name : Json) (arguments : Json)

/-- Converting one prompted value per its declared schema type (source
lines 343-356): `integer`/`number` and `object`/`array` try `json.loads`
and keep the raw string on failure; `boolean` compares against
`("true", "1", "yes")`; anything else stays a string. -/
def convertVal (ptype : Json) (val : String) : Json :=
  if jsonEq ptype (strJ "integer") || jsonEq ptype (strJ "number") then
    match jsonLoads val.toList with
    | some j => j
    | none => strJ val
  else if jsonEq ptype (strJ "boolean") then
    .bool (pyLower val == "true" || pyLower val == "1" || pyLower val == "yes")
  else if jsonEq ptype (strJ "object") || jsonEq ptype (strJ "array") then
    match jsonLoads val.toList with
    | some j => j
    | none => strJ val
  else strJ val

/-- The parameter-prompt loop (source lines 332-356): one console value per
property in schema order, stripped; an empty value skips a parameter not in
`required`; every other value is converted and inserted.  `none` models the
`AttributeError` when a property's info is not a dict. -/
def buildArgs : JsonFields → List Json → List String → Option JsonFields
  | .nil, _, _ => some .nil
  | .cons pname pinfo rest, required, vals => do
    let ptype ← jsonGetD pinfo "type".toList (strJ "string")
    let val := pyStripS (vals.headD "")
    if val == "" && !(jsonMem (.str pname) required) then
      buildArgs rest required vals.tail
    else do
      let args ← buildArgs rest required vals.tail
      pure (.cons pname (convertVal ptype val) args)

/-- From the found tool definition to the `arguments` dict (source lines
324-356): read `inputSchema`, `properties`, `required`, then prompt.
`none` models the faults Python would raise on malformed schemas. -/
def prepArgs (toolDef : Json) (vals : List String) : Option Json := do
  let schema ← jsonGetD toolDef "inputSchema".toList (.obj .nil)
  let props ← jsonGetD schema "properties".toList (.obj .nil)
  let reqJ ← jsonGetD schema "required".toList (.arr .nil)
  match reqJ with
  | .arr required =>
    if jsonTruthy props then
      match props with
      | .obj fields => (buildArgs fields required.toList vals).map .obj
      | _ => none
    else pure (.obj .nil)
  | _ => none

/-- `next(t for t in tools if t["name"] == choice)`; an element without a
`name` is skipped here, where Python would raise (unreachable from the
session, which builds `toolNames` first). -/
def findTool : JsonList → Json → Option Json
  | .nil, _ => none
  | .cons t rest, choice =>
    match jsonSub t "name".toList with
    | some n => if jsonEq n choice then some t else findTool rest choice
    | none => findTool rest choice

/-- The iteration tail shared by the by-name and by-number paths: the
unknown-tool check, the `next(...)` lookup, and argument collection. -/
def iterStepNamed (tools : JsonList) (toolNames : List Json) (choice : Json)
    (vals : List String) : IterOut :=
  if !(jsonMem choice toolNames) then .localErr .unknownTool
  else
    match findTool tools choice with
    | none => .crash
    | some toolDef =>
      match prepArgs toolDef vals with
      | some args => .send choice args
      | none => .crash

/-- One iteration of the interactive loop (source lines 305-356): strip the
choice, test for quit words, map a digit string through `int(choice) - 1`
onto the tool list, then hand over to `iterStepNamed`. -/
def iterStep (tools : JsonList) (toolNames : List Json) (inp : IterInput) : IterOut :=
  let choice0 := pyStripS inp.choice
  if pyLower choice0 == "quit" || pyLower choice0 == "exit" ||
      pyLower choice0 == "q" || pyLower choice0 == "" then
    .quit
  else if pyIsDigit choice0 then
    let idx : Int := (pyToNat choice0 : Int) - 1
    if h : 0 ≤ idx ∧ idx < toolNames.length then
      iterStepNamed tools toolNames (toolNames.get ⟨idx.toNat, by omega⟩) inp.vals
    else .localErr .invalidNumber
  else iterStepNamed tools toolNames (strJ choice0) inp.vals

/-! ## The event trace of `main` -/

/-- Why `main` prints a `[-]` diagnostic and exits. -/
inductive FailReason where
  | config
  | authError
  | noCode
  | acquireFailed
  | discovery (d : DiscFail)
  | oboFailed
  | initFailed
  | noTools
deriving DecidableEq

/-- The externally visible events of a run: the two MSAL token calls, the
metadata fetch, each JSON-RPC POST (with its request id and method), the
loop-local rejections, the exits, and a modelled Python fault. -/
inductive Ev where
  | acquire (code : String)
  | metaFetch
  | obo (assertion : String) (scopes : List String)
  | rpcPost (id : Nat) (method : String)
  | localErr (e : LocalErr)
  | fail (r : FailReason)
  | exit (code : Nat)
  | done
  | crash
deriving DecidableEq

/-- The interactive loop (source lines 298-377): one event per iteration;
`call_id` starts at 3 and is incremented exactly when a call is sent. -/
def toolLoop (tools : JsonList) (toolNames : List Json) : Nat → List IterInput → List Ev
  | _, [] => []
  | callId, inp :: rest =>
    match iterStep tools toolNames inp with
    | .quit => [.done]
    | .localErr e => .localErr e :: toolLoop tools toolNames callId rest
    | .crash => [.crash]
    | .send _ _ => .rpcPost callId "tools/call" :: toolLoop tools toolNames (callId + 1) rest

/-- The downstream responses and token results one run consumes. -/
structure Env where
  callback : Option (Nat × CbPayload)
  acquireToken : Option String
  metaResponse : Option (Nat × List String)
  oboToken : Option String
  initStatus : Nat
  listBody : String

/-- `tools = tools_result.get("result", {}).get("tools", [])` guarded by
`if tools_result:` (source lines 281-287); `none` models a raised fault. -/
def sessionTools (env : Env) : Option Json :=
  match parse_sse_or_json env.listBody.toList with
  | some r => if jsonTruthy r then extractToolsJson r else some (.arr .nil)
  | none => some (.arr .nil)

/-- Step 4 (source lines 242-377): `initialize` with id 1 (fatal on a
non-200 status), `tools/list` with id 2, extraction of the tool list from
the dual-mode-parsed body, exit 0 when it is empty, then the loop. -/
def sessionTrace (env : Env) (inputs : List IterInput) : List Ev :=
  .rpcPost 1 "initialize" ::
  if env.initStatus ≠ 200 then [.fail .initFailed, .exit 1]
  else
    .rpcPost 2 "tools/list" ::
    match sessionTools env with
    | none => [.crash]
    | some toolsJ =>
      if !(jsonTruthy toolsJ) then [.fail .noTools, .exit 0]
      else
        match toolNamesOf toolsJ with
        | none => [.crash]
        | some toolNames =>
          match toolsJ with
          | .arr tools => toolLoop tools toolNames 3 inputs
          | _ => [.crash]

/-- Steps 3-4 from the OBO exchange on (source lines 222-377). -/
def oboPart (userToken scope : String) (env : Env) (inputs : List IterInput) : List Ev :=
  .obo userToken [scope] ::
  match env.oboToken with
  | none => [.fail .oboFailed, .exit 1]
  | some _ => sessionTrace env inputs

/-- The whole of `main` (source lines 124-377) as an event trace: sanity
checks, the bounded wait for the callback, the code-for-token exchange,
scope discovery (skipped when `MCP_SCOPE` is set), the OBO exchange, and
the session. -/
def mainTrace (cfg : Config) (env : Env) (inputs : List IterInput) : List Ev :=
  if !(configOk cfg) then [.fail .config, .exit 1]
  else if (bucketAfterWait env.callback).error.getD "" ≠ "" then
    [.fail .authError, .exit 1]
  else if (bucketAfterWait env.callback).code.getD "" == "" then
    [.fail .noCode, .exit 1]
  else
    .acquire ((bucketAfterWait env.callback).code.getD "") ::
    match env.acquireToken with
    | none => [.fail .acquireFailed, .exit 1]
    | some userToken =>
      if cfg.mcpScope ≠ "" then oboPart userToken cfg.mcpScope env inputs
      else
        .metaFetch ::
        match discoverScope env.metaResponse with
        | .error d => [.fail (.discovery d), .exit 1]
        | .ok scope => oboPart userToken scope env inputs

/-! ## Definitions used by the claim statements -/

/-- The payload `line[len("data:"):].strip()` of a stripped line, when the
stripped line starts with the data marker. -/
def dataPayload (l : PyStr) : Option PyStr :=
  let l2 := pyStrip l
  if dataMarker.isPrefixOf l2 then some (pyStrip (l2.drop dataMarker.length))
  else none

/-- The JSON-RPC request ids of a trace, in wire order. -/
def rpcIds (tr : List Ev) : List Nat :=
  tr.filterMap (fun e => match e with | .rpcPost i _ => some i | _ => none)

/-- The request ids of the `tools/call` requests only, in wire order. -/
def callIds (tr : List Ev) : List Nat :=
  tr.filterMap (fun e =>
    match e with
    | .rpcPost i m => if m = "tools/call" then some i else none
    | _ => none)

/-- Recogniser for the OBO-exchange event. -/
def isOboEv : Ev → Bool
  | .obo _ _ => true
  | _ => false

/-- Recogniser for a JSON-RPC POST event. -/
def isRpcEv : Ev → Bool
  | .rpcPost _ _ => true
  | _ => false

/-- Recogniser for the code-for-token exchange event. -/
def isAcquireEv : Ev → Bool
  | .acquire _ => true
  | _ => false

/-- Recogniser for the metadata-fetch event. -/
def isMetaFetchEv : Ev → Bool
  | .metaFetch => true
  | _ => false

/-! ### Character-class predicates for the serializer output -/

/-- Printable ASCII. -/
def goodChar (c : Char) : Bool := 32 ≤ c.toNat && c.toNat ≤ 126

/-- The characters that can open a `dumps` rendering:
`n`, `t`, `f`, `"`, `-`, a digit, `[`, `{`. -/
def startOkChar (c : Char) : Bool :=
  c.toNat = 110 || c.toNat = 116 || c.toNat = 102 || c.toNat = 34 ||
  c.toNat = 45 || (48 ≤ c.toNat && c.toNat ≤ 57) || c.toNat = 91 || c.toNat = 123

/-- The characters that can close a `dumps` rendering:
`l`, `e`, `"`, a digit, `]`, `}`. -/
def endOkChar (c : Char) : Bool :=
  c.toNat = 108 || c.toNat = 101 || c.toNat = 34 ||
  (48 ≤ c.toNat && c.toNat ≤ 57) || c.toNat = 93 || c.toNat = 125

/-- Shape of every `dumps` output: printable ASCII throughout, opened and
closed by non-space value delimiters. -/
def goodOut (s : PyStr) : Bool :=
  s.all goodChar &&
  (match s with | [] => false | a :: _ => startOkChar a) &&
  (match s.reverse with | [] => false | b :: _ => endOkChar b)

/-! ### Concrete fixtures for witnesses and counterexamples -/

/-- A configuration that passes the sanity checks, with `MCP_SCOPE` unset. -/
def cfgNoScope : Config :=
  ⟨"tid", "cid", "secret", "http://localhost:53682/callback",
   "api://app/user_impersonation", "", "https://mcp.example"⟩

/-- The same configuration with an explicit `MCP_SCOPE`. -/
def cfgWithScope : Config := { cfgNoScope with mcpScope := "api://mcp/.default" }

/-- A happy-path environment: prompt callback, tokens granted, one tool
(`echo`, with one required string parameter `x`). -/
def envHappy : Env :=
  { callback := some (5, .ok (some "AUTHCODE") (some "agent-platform-obo-sim"))
  , acquireToken := some "USERTOKEN"
  , metaResponse := some (200, ["openid", "profile", "custom.scope"])
  , oboToken := some "MCPTOKEN"
  , initStatus := 200
  , listBody := "\x7b\"result\": \x7b\"tools\": [\x7b\"name\": \"echo\", \"inputSchema\": \x7b\"properties\": \x7b\"x\": \x7b\"type\": \"string\"\x7d\x7d, \"required\": [\"x\"]\x7d\x7d]\x7d\x7d" }

/-- `envHappy` with an acquire result whose `access_token` is the empty
string (the key is present, so the script continues). -/
def envEmptyToken : Env := { envHappy with acquireToken := some "" }

/-- The tool list of `envHappy`, as the session extracts it. -/
def toolsEcho : JsonList :=
  .cons (Json.obj (.cons "name".toList (strJ "echo")
    (.cons "inputSchema".toList (Json.obj
      (.cons "properties".toList
        (Json.obj (.cons "x".toList
          (Json.obj (.cons "type".toList (strJ "string") .nil)) .nil))
        (.cons "required".toList (Json.arr (.cons (strJ "x") .nil)) .nil))) .nil)))
    .nil

/-- The tool names of `toolsEcho`. -/
def namesEcho : List Json := [strJ "echo"]

/-- The `properties` dict of the `echo` tool: one string parameter `x`. -/
def propsEchoX : JsonFields :=
  .cons "x".toList (Json.obj (.cons "type".toList (strJ "string") .nil)) .nil

/-- The `echo` tool definition itself (the single element of `toolsEcho`). -/
def toolDefEcho : Json :=
  Json.obj (.cons "name".toList (strJ "echo")
    (.cons "inputSchema".toList (Json.obj
      (.cons "properties".toList (Json.obj propsEchoX)
        (.cons "required".toList (Json.arr (.cons (strJ "x") .nil)) .nil))) .nil))

/-- The parameter names of a `properties` dict, in prompt order. -/
def fieldKeys : JsonFields → List PyStr
  | .nil => []
  | .cons k _ rest => k :: fieldKeys rest

/-- Every parameter's info block is a dict (so `param_info.get` cannot
raise while prompting). -/
def allInfoObj : JsonFields → Bool
  | .nil => true
  | .cons _ info rest =>
    (match info with | .obj _ => true | _ => false) && allInfoObj rest

/-! # Theorems -/

set_option maxRecDepth 100000

/-! ## The response parser: C3, C10, C4 -/

/-- The scan loop returns the first data-line payload that parses. -/
theorem scanDataLines_eq_findSome (ls : List PyStr) :
    scanDataLines ls = ls.findSome? (fun l => (dataPayload l).bind jsonLoads) := by
  induction ls with
  | nil => rfl
  | cons l rest ih =>
    rw [List.findSome?_cons]
    by_cases hp : dataMarker.isPrefixOf (pyStrip l)
    · rw [show dataPayload l = some (pyStrip ((pyStrip l).drop dataMarker.length)) from by
        simp [dataPayload, hp]]
      simp only [scanDataLines, hp, if_true, Option.some_bind]
      cases h : jsonLoads (pyStrip ((pyStrip l).drop dataMarker.length)) <;>
        simp [h, ih]
    · rw [show dataPayload l = none from by simp [dataPayload, hp]]
      simp only [scanDataLines, hp, if_false, Option.none_bind]
      simpa using ih

/-- C3: a response body is first parsed whole as JSON and that result is
returned; when that fails and every `data:`-line payload also fails to
parse, the result is the failure marker `none` — the fallback never raises
(the parser is a total function into `Option`). -/
theorem C3_response_parsing_policy (t : PyStr) :
    (∀ v, jsonLoads (pyStrip t) = some v → parse_sse_or_json t = some v) ∧
    (jsonLoads (pyStrip t) = none →
      (∀ l ∈ splitLines (pyStrip t), (dataPayload l).bind jsonLoads = none) →
      parse_sse_or_json t = none) := by
  constructor
  · intro v h
    simp [parse_sse_or_json, h]
  · intro h hall
    simp only [parse_sse_or_json, h, scanDataLines_eq_findSome]
    exact List.findSome?_eq_none_iff.mpr hall

/-- Witness for C3 at a concrete body: not JSON, one unparsable data line. -/
theorem C3_response_parsing_policy_witness :
    parse_sse_or_json "hello\ndata: nope".toList = none :=
  (C3_response_parsing_policy _).2 (by decide) (by decide)

/-- C10: when the whole body is not JSON, the result is exactly the first
`data:`-line payload that parses (earlier unparsable data lines are
skipped), and `none` when no line parses. -/
theorem C10_first_parsable_data_line (t : PyStr)
    (h : jsonLoads (pyStrip t) = none) :
    parse_sse_or_json t =
      (splitLines (pyStrip t)).findSome? (fun l => (dataPayload l).bind jsonLoads) := by
  simp [parse_sse_or_json, h, scanDataLines_eq_findSome]

/-- Witness for C10: the first data line is unparsable and skipped, the
second one is returned. -/
theorem C10_first_parsable_data_line_witness :
    parse_sse_or_json "data: nope\ndata: 7".toList =
      (splitLines (pyStrip "data: nope\ndata: 7".toList)).findSome?
        (fun l => (dataPayload l).bind jsonLoads) ∧
    parse_sse_or_json "data: nope\ndata: 7".toList = some (.num 7) :=
  ⟨C10_first_parsable_data_line _ (by decide), by decide⟩

/-! ### Character-class lemmas -/

theorem isDigit_toNat {c : Char} (h : c.isDigit = true) : 48 ≤ c.toNat ∧ c.toNat ≤ 57 := by
  simpa [Char.isDigit, Char.le_def, UInt32.le_def] using h

theorem isDigit_good {c : Char} (h : c.isDigit = true) : goodChar c = true := by
  have := isDigit_toNat h
  simp [goodChar]
  omega

theorem startOk_not_space {c : Char} (h : startOkChar c = true) : pySpace c = false := by
  simp [startOkChar] at h
  simp [pySpace]
  omega

theorem endOk_not_space {c : Char} (h : endOkChar c = true) : pySpace c = false := by
  simp [endOkChar] at h
  simp [pySpace]
  omega

theorem goodChar_not_break {c : Char} (h : goodChar c = true) : pyLineBreak c = false := by
  simp [goodChar] at h
  simp [pyLineBreak]
  omega

theorem startOk_ne_d {c : Char} (h : startOkChar c = true) : c ≠ 'd' := by
  rintro rfl
  exact absurd h (by decide)

/-! ### `pyStrip` and `splitLines` lemmas -/

theorem pyStrip_eq_self {s : PyStr} (hhead : ∀ a, s.head? = some a → pySpace a = false)
    (hlast : ∀ b, s.reverse.head? = some b → pySpace b = false) : pyStrip s = s := by
  unfold pyStrip
  have h1 : s.dropWhile pySpace = s := by
    cases s with
    | nil => rfl
    | cons a t => simp [List.dropWhile_cons, hhead a rfl]
  rw [h1]
  have h2 : s.reverse.dropWhile pySpace = s.reverse := by
    cases hr : s.reverse with
    | nil => rfl
    | cons b t2 =>
      have hb := hlast b (by rw [hr]; rfl)
      simp [List.dropWhile_cons, hb]
  rw [h2, List.reverse_reverse]

theorem pyStrip_cons_of_space {c : Char} (h : pySpace c = true) (s : PyStr) :
    pyStrip (c :: s) = pyStrip s := by
  simp [pyStrip, List.dropWhile_cons, h]

theorem splitLinesAux_single : ∀ (s acc : PyStr), s ≠ [] →
    (∀ c ∈ s, pyLineBreak c = false) → splitLinesAux acc s = [acc.reverse ++ s]
  | [], _, h, _ => absurd rfl h
  | c :: rest, acc, _, hall => by
    have hc : pyLineBreak c = false := hall c (by simp)
    have hcr : c ≠ '\r' := by rintro rfl; exact absurd hc (by decide)
    cases rest with
    | nil => simp [splitLinesAux, hc, hcr]
    | cons c2 rest2 =>
      rw [show splitLinesAux acc (c :: c2 :: rest2) = splitLinesAux (c :: acc) (c2 :: rest2) from by
            simp [splitLinesAux, hc, hcr],
        splitLinesAux_single (c2 :: rest2) (c :: acc) (by simp)
          (fun x hx => hall x (by simp [hx]))]
      simp

/-! ### Parser refusal of `data:`-prefixed text -/

theorem parseValue_d (fuel : Nat) (l : PyStr) : parseValue (fuel + 1) ('d' :: l) = none := by
  simp [parseValue]

theorem jsonLoads_d (l : PyStr) : jsonLoads ('d' :: l) = none := by
  unfold jsonLoads
  have h1 : skipWs ('d' :: l) = 'd' :: l := by simp [skipWs, List.dropWhile_cons, jsonWs]
  rw [h1]
  have h2 : 2 * ('d' :: l).length + 2 = (2 * l.length + 3) + 1 := by
    simp [List.length_cons]; ring
  rw [h2, parseValue_d]

/-! ### `goodOut` decomposition and composition -/

theorem goodOut_chars {s : PyStr} (h : goodOut s = true) : ∀ c ∈ s, goodChar c = true := by
  simp only [goodOut, Bool.and_eq_true, List.all_eq_true] at h
  exact fun c hc => h.1.1 c hc

theorem goodOut_head {s : PyStr} (h : goodOut s = true) :
    ∃ a t, s = a :: t ∧ startOkChar a = true := by
  cases s with
  | nil => simp [goodOut] at h
  | cons a t =>
    refine ⟨a, t, rfl, ?_⟩
    simp only [goodOut, Bool.and_eq_true] at h
    exact h.1.2

theorem goodOut_last {s : PyStr} (h : goodOut s = true) :
    ∃ b t2, s.reverse = b :: t2 ∧ endOkChar b = true := by
  cases hr : s.reverse with
  | nil => simp only [goodOut, hr, Bool.and_eq_true] at h; exact absurd h.2 (by simp)
  | cons b t2 =>
    refine ⟨b, t2, rfl, ?_⟩
    simp only [goodOut, hr, Bool.and_eq_true] at h
    exact h.2

theorem goodOut_ne_nil {s : PyStr} (h : goodOut s = true) : s ≠ [] := by
  rintro rfl
  simp [goodOut] at h

theorem goodOut_bracket {a b : Char} {inner : PyStr}
    (hga : goodChar a = true) (ha : startOkChar a = true)
    (hgb : goodChar b = true) (hb : endOkChar b = true)
    (hinner : ∀ c ∈ inner, goodChar c = true) :
    goodOut (a :: (inner ++ [b])) = true := by
  simp only [goodOut, Bool.and_eq_true, List.all_eq_true]
  refine ⟨⟨?_, ha⟩, ?_⟩
  · intro c hc
    simp only [List.mem_cons, List.mem_append, List.mem_singleton,
      List.not_mem_nil, or_false] at hc
    rcases hc with rfl | hc | rfl
    · exact hga
    · exact hinner c hc
    · exact hgb
  · rw [show (a :: (inner ++ [b])).reverse = b :: (inner.reverse ++ [a]) from by simp]
    exact hb

/-! ### Serializer character lemmas -/

theorem digitChar_isDigit (k : Nat) : (digitChar k).isDigit = true := by
  unfold digitChar
  split <;> decide

theorem digitChar_good (k : Nat) : goodChar (digitChar k) = true :=
  isDigit_good (digitChar_isDigit k)

theorem hexDigitChar_good (n : Nat) : goodChar (hexDigitChar n) = true := by
  unfold hexDigitChar
  split
  · exact digitChar_good n
  · split
    · decide
    · split
      · decide
      · split
        · decide
        · split
          · decide
          · split <;> decide

theorem hex4_good (n : Nat) : ∀ c ∈ hex4 n, goodChar c = true := by
  intro c hc
  simp only [hex4, List.mem_cons, List.not_mem_nil, or_false] at hc
  rcases hc with rfl | rfl | rfl | rfl <;> exact hexDigitChar_good _

set_option maxHeartbeats 2000000 in
theorem escapeChar_good (c : Char) : ∀ x ∈ escapeChar c, goodChar x = true := by
  intro x hx
  unfold escapeChar at hx
  split_ifs at hx with h1 h2 h3 h4 h5 h6 h7 h8 h9 h10
  all_goals
    simp only [List.cons_append, List.nil_append, List.mem_cons, List.mem_append,
      List.not_mem_nil, or_false, List.mem_singleton] at hx
  · rcases hx with rfl | rfl <;> decide
  · rcases hx with rfl | rfl <;> decide
  · rcases hx with rfl | rfl <;> decide
  · rcases hx with rfl | rfl <;> decide
  · rcases hx with rfl | rfl <;> decide
  · rcases hx with rfl | rfl <;> decide
  · rcases hx with rfl | rfl <;> decide
  · rcases hx with rfl | rfl | hx
    · decide
    · decide
    · exact hex4_good _ _ hx
  · subst hx
    simp only [goodChar, Bool.and_eq_true, decide_eq_true_eq]
    omega
  · rcases hx with rfl | rfl | hx
    · decide
    · decide
    · exact hex4_good _ _ hx
  · rcases hx with rfl | rfl | hx | rfl | rfl | hx
    · decide
    · decide
    · exact hex4_good _ _ hx
    · decide
    · decide
    · exact hex4_good _ _ hx

theorem escString_good (s : PyStr) : ∀ x ∈ escString s, goodChar x = true := by
  intro x hx
  simp only [escString, List.mem_flatten, List.mem_map] at hx
  obtain ⟨l, ⟨c, _, rfl⟩, hxl⟩ := hx
  exact escapeChar_good c x hxl

/-! ### Number rendering shape -/

theorem natDigitsAux_digits : ∀ (fuel n : Nat), ∀ c ∈ natDigitsAux fuel n, c.isDigit = true
  | 0, n => by simp [natDigitsAux]
  | fuel + 1, n => by
    intro c hc
    rw [natDigitsAux] at hc
    by_cases h10 : n < 10
    · simp only [h10, if_true, List.mem_singleton] at hc
      subst hc
      exact digitChar_isDigit n
    · simp only [h10, if_false, List.mem_append, List.mem_singleton] at hc
      rcases hc with hc | rfl
      · exact natDigitsAux_digits fuel (n / 10) c hc
      · exact digitChar_isDigit _

theorem natDigitsAux_ne_nil (fuel n : Nat) : natDigitsAux (fuel + 1) n ≠ [] := by
  rw [natDigitsAux]
  by_cases h10 : n < 10 <;> simp [h10]

theorem goodOut_of_digits {s : PyStr} (hne : s ≠ []) (h : ∀ c ∈ s, c.isDigit = true) :
    goodOut s = true := by
  cases s with
  | nil => exact absurd rfl hne
  | cons a t =>
    have ha := isDigit_toNat (h a (by simp))
    simp only [goodOut, Bool.and_eq_true, List.all_eq_true]
    refine ⟨⟨fun c hc => isDigit_good (h c hc), ?_⟩, ?_⟩
    · simp only [startOkChar, Bool.or_eq_true, Bool.and_eq_true, decide_eq_true_eq]
      omega
    · cases hrr : (a :: t).reverse with
      | nil => simp at hrr
      | cons x xs =>
        have hx : x ∈ a :: t := List.mem_reverse.mp (by rw [hrr]; simp)
        have := isDigit_toNat (h x hx)
        simp only [endOkChar, Bool.or_eq_true, Bool.and_eq_true, decide_eq_true_eq]
        omega

theorem goodOut_of_neg_digits {s : PyStr} (hne : s ≠ []) (h : ∀ c ∈ s, c.isDigit = true) :
    goodOut ('-' :: s) = true := by
  cases s with
  | nil => exact absurd rfl hne
  | cons a t =>
    simp only [goodOut, Bool.and_eq_true, List.all_eq_true]
    refine ⟨⟨?_, by decide⟩, ?_⟩
    · intro c hc
      simp only [List.mem_cons] at hc
      rcases hc with rfl | hc
      · decide
      · exact isDigit_good (h c (by simpa using hc))
    · cases hrr : (a :: t).reverse with
      | nil => simp at hrr
      | cons x xs =>
        have hx : x ∈ a :: t := List.mem_reverse.mp (by rw [hrr]; simp)
        have := isDigit_toNat (h x hx)
        rw [show ('-' :: a :: t).reverse = x :: (xs ++ ['-']) from by
          rw [List.reverse_cons, hrr]; simp]
        simp only [endOkChar, Bool.or_eq_true, Bool.and_eq_true, decide_eq_true_eq]
        omega

theorem intDigits_good (n : Int) : goodOut (intDigits n) = true := by
  unfold intDigits natDigits
  by_cases hn : n < 0
  · simp only [hn, if_true]
    exact goodOut_of_neg_digits (natDigitsAux_ne_nil _ _) (natDigitsAux_digits _ _)
  · simp only [hn, if_false]
    exact goodOut_of_digits (natDigitsAux_ne_nil _ _) (natDigitsAux_digits _ _)

/-! ### Membership composition helpers -/

theorem chars_append {s1 s2 : PyStr} (h1 : ∀ c ∈ s1, goodChar c = true)
    (h2 : ∀ c ∈ s2, goodChar c = true) : ∀ c ∈ s1 ++ s2, goodChar c = true := by
  intro c hc
  rcases List.mem_append.mp hc with hc | hc
  · exact h1 c hc
  · exact h2 c hc

theorem chars_cons {a : Char} {s : PyStr} (ha : goodChar a = true)
    (h : ∀ c ∈ s, goodChar c = true) : ∀ c ∈ a :: s, goodChar c = true := by
  intro c hc
  rcases List.mem_cons.mp hc with rfl | hc
  · exact ha
  · exact h c hc

/-! ### Every `dumps` rendering is well-shaped -/

mutual

theorem dumps_good : ∀ v : Json, goodOut (dumps v) = true
  | .null => by decide
  | .bool true => by decide
  | .bool false => by decide
  | .num n => intDigits_good n
  | .str s => by
    rw [show dumps (.str s) = '"' :: (escString s ++ ['"']) from rfl]
    exact goodOut_bracket (by decide) (by decide) (by decide) (by decide) (escString_good s)
  | .arr l => by
    rw [show dumps (.arr l) = '[' :: (dumpsArr l ++ [']']) from rfl]
    exact goodOut_bracket (by decide) (by decide) (by decide) (by decide) (dumpsArr_chars l)
  | .obj l => by
    rw [show dumps (.obj l) = '{' :: (dumpsObj l ++ ['}']) from rfl]
    exact goodOut_bracket (by decide) (by decide) (by decide) (by decide) (dumpsObj_chars l)

theorem dumpsArr_chars : ∀ l : JsonList, ∀ c ∈ dumpsArr l, goodChar c = true
  | .nil => by simp [dumpsArr]
  | .cons x .nil => by
    rw [show dumpsArr (.cons x .nil) = dumps x from rfl]
    exact goodOut_chars (dumps_good x)
  | .cons x (.cons y ys) => by
    rw [show dumpsArr (.cons x (.cons y ys)) =
        dumps x ++ ',' :: ' ' :: dumpsArr (.cons y ys) from rfl]
    exact chars_append (goodOut_chars (dumps_good x))
      (chars_cons (by decide) (chars_cons (by decide) (dumpsArr_chars (.cons y ys))))

theorem dumpsObj_chars : ∀ l : JsonFields, ∀ c ∈ dumpsObj l, goodChar c = true
  | .nil => by simp [dumpsObj]
  | .cons k v .nil => by
    rw [show dumpsObj (.cons k v .nil) =
        '"' :: (escString k ++ ['"', ':', ' ']) ++ dumps v from rfl]
    exact chars_append
      (chars_cons (by decide) (chars_append (escString_good k)
        (chars_cons (by decide) (chars_cons (by decide) (chars_cons (by decide) (by simp))))))
      (goodOut_chars (dumps_good v))
  | .cons k v (.cons k2 v2 ys) => by
    rw [show dumpsObj (.cons k v (.cons k2 v2 ys)) =
        ('"' :: (escString k ++ ['"', ':', ' ']) ++ dumps v) ++
          ',' :: ' ' :: dumpsObj (.cons k2 v2 ys) from rfl]
    exact chars_append
      (chars_append
        (chars_cons (by decide) (chars_append (escString_good k)
          (chars_cons (by decide) (chars_cons (by decide) (chars_cons (by decide) (by simp))))))
        (goodOut_chars (dumps_good v)))
      (chars_cons (by decide) (chars_cons (by decide) (dumpsObj_chars (.cons k2 v2 ys))))

end

/-- C4: for every JSON value `v`, parsing the plain serialization of `v`
yields the same structured result as parsing an SSE-framed body whose data
line is `data: ` followed by that serialization. -/
theorem C4_sse_plain_agree (v : Json) :
    parse_sse_or_json (dumps v) = parse_sse_or_json ("data: ".toList ++ dumps v) := by
  apply Eq.symm
  obtain ⟨a, t, hD, ha⟩ := goodOut_head (dumps_good v)
  obtain ⟨b, t2, hR, hb⟩ := goodOut_last (dumps_good v)
  have hchars := goodOut_chars (dumps_good v)
  have hstripD : pyStrip (dumps v) = dumps v := by
    refine pyStrip_eq_self (fun x hx => ?_) (fun x hx => ?_)
    · rw [hD] at hx
      simp only [List.head?_cons, Option.some_inj] at hx
      subst hx
      exact startOk_not_space ha
    · rw [hR] at hx
      simp only [List.head?_cons, Option.some_inj] at hx
      subst hx
      exact endOk_not_space hb
  have hstripS : pyStrip ("data: ".toList ++ dumps v) = "data: ".toList ++ dumps v := by
    refine pyStrip_eq_self (fun x hx => ?_) (fun x hx => ?_)
    · rw [show ("data: ".toList ++ dumps v) = 'd' :: ("ata: ".toList ++ dumps v) from rfl] at hx
      simp only [List.head?_cons, Option.some_inj] at hx
      subst hx
      decide
    · rw [List.reverse_append, hR] at hx
      simp only [List.cons_append, List.head?_cons, Option.some_inj] at hx
      subst hx
      exact endOk_not_space hb
  have hDnb : ∀ c ∈ dumps v, pyLineBreak c = false := fun c hc => goodChar_not_break (hchars c hc)
  have hSnb : ∀ c ∈ "data: ".toList ++ dumps v, pyLineBreak c = false := by
    intro c hc
    rcases List.mem_append.mp hc with hc | hc
    · have hc2 : c ∈ ['d', 'a', 't', 'a', ':', ' '] := hc
      simp only [List.mem_cons, List.not_mem_nil, or_false] at hc2
      rcases hc2 with rfl | rfl | rfl | rfl | rfl | rfl <;> decide
    · exact hDnb c hc
  have hslD : splitLines (dumps v) = [dumps v] := by
    unfold splitLines
    rw [splitLinesAux_single (dumps v) [] (by rw [hD]; simp) hDnb]
    simp
  have hslS : splitLines ("data: ".toList ++ dumps v) = ["data: ".toList ++ dumps v] := by
    unfold splitLines
    rw [splitLinesAux_single _ [] (by simp) hSnb]
    simp
  have hjS : jsonLoads ("data: ".toList ++ dumps v) = none := jsonLoads_d _
  have hpS : dataMarker.isPrefixOf ("data: ".toList ++ dumps v) = true := by
    rw [show dataMarker = 'd' :: 'a' :: 't' :: 'a' :: ':' :: [] from rfl]
    simp [List.isPrefixOf]
  have hpD : dataMarker.isPrefixOf (dumps v) = false := by
    rw [hD, show dataMarker = 'd' :: 'a' :: 't' :: 'a' :: ':' :: [] from rfl]
    have had := startOk_ne_d ha
    simp only [List.isPrefixOf, Bool.and_eq_false_iff]
    left
    simp only [beq_eq_false_iff_ne, ne_eq]
    exact fun h => had h.symm
  have hdrop : ("data: ".toList ++ dumps v).drop dataMarker.length = ' ' :: dumps v := rfl
  simp only [parse_sse_or_json]
  rw [hstripS, hstripD, hjS, hslS, hslD]
  simp only [scanDataLines, hstripS, hpS, if_true, hdrop,
    pyStrip_cons_of_space (by decide : pySpace ' ' = true), hstripD]
  cases hjD : jsonLoads (dumps v) with
  | none => simp [scanDataLines, hstripD, hpD]
  | some j => simp

/-! ### Trace shape lemmas -/

theorem toolLoop_events : ∀ (tools : JsonList) (names : List Json) (k : Nat)
    (inputs : List IterInput), ∀ e ∈ toolLoop tools names k inputs,
    (∃ i, e = .rpcPost i "tools/call") ∨ (∃ le, e = .localErr le) ∨ e = .done ∨ e = .crash := by
  intro tools names k inputs
  induction inputs generalizing k with
  | nil => simp [toolLoop]
  | cons inp rest ih =>
    intro e he
    rw [toolLoop] at he
    cases hstep : iterStep tools names inp with
    | quit =>
      rw [hstep] at he
      simp only [List.mem_singleton] at he
      subst he
      tauto
    | localErr le =>
      rw [hstep] at he
      rcases List.mem_cons.mp he with rfl | he2
      · exact Or.inr (Or.inl ⟨le, rfl⟩)
      · exact ih k e he2
    | crash =>
      rw [hstep] at he
      simp only [List.mem_singleton] at he
      subst he
      tauto
    | send nm args =>
      rw [hstep] at he
      rcases List.mem_cons.mp he with rfl | he2
      · exact Or.inl ⟨k, rfl⟩
      · exact ih (k + 1) e he2

theorem toolLoop_rpcIds : ∀ (tools : JsonList) (names : List Json)
    (inputs : List IterInput) (k : Nat),
    ∃ m, rpcIds (toolLoop tools names k inputs) = List.range' k m := by
  intro tools names inputs
  induction inputs with
  | nil => exact fun k => ⟨0, by simp [toolLoop, rpcIds]⟩
  | cons inp rest ih =>
    intro k
    cases hstep : iterStep tools names inp with
    | quit => exact ⟨0, by simp [toolLoop, hstep, rpcIds]⟩
    | crash => exact ⟨0, by simp [toolLoop, hstep, rpcIds]⟩
    | localErr le =>
      obtain ⟨m, hm⟩ := ih k
      refine ⟨m, ?_⟩
      rw [toolLoop, hstep]
      simpa [rpcIds, List.filterMap_cons] using hm
    | send nm args =>
      obtain ⟨m, hm⟩ := ih (k + 1)
      refine ⟨m + 1, ?_⟩
      rw [toolLoop, hstep]
      simp only [rpcIds, List.filterMap_cons] at hm ⊢
      rw [hm, List.range']

theorem toolLoop_callIds : ∀ (tools : JsonList) (names : List Json)
    (inputs : List IterInput) (k : Nat),
    ∃ m, callIds (toolLoop tools names k inputs) = List.range' k m := by
  intro tools names inputs
  induction inputs with
  | nil => exact fun k => ⟨0, by simp [toolLoop, callIds]⟩
  | cons inp rest ih =>
    intro k
    cases hstep : iterStep tools names inp with
    | quit => exact ⟨0, by simp [toolLoop, hstep, callIds]⟩
    | crash => exact ⟨0, by simp [toolLoop, hstep, callIds]⟩
    | localErr le =>
      obtain ⟨m, hm⟩ := ih k
      refine ⟨m, ?_⟩
      rw [toolLoop, hstep]
      simpa [callIds, List.filterMap_cons] using hm
    | send nm args =>
      obtain ⟨m, hm⟩ := ih (k + 1)
      refine ⟨m + 1, ?_⟩
      rw [toolLoop, hstep]
      simp only [callIds, List.filterMap_cons, if_true] at hm ⊢
      rw [hm, List.range']

theorem sessionTrace_cases (env : Env) (inputs : List IterInput) :
    sessionTrace env inputs = [.rpcPost 1 "initialize", .fail .initFailed, .exit 1] ∨
    (∃ tail, sessionTrace env inputs =
        .rpcPost 1 "initialize" :: .rpcPost 2 "tools/list" :: tail ∧
      (tail = [.crash] ∨ tail = [.fail .noTools, .exit 0] ∨
        ∃ tools names, tail = toolLoop tools names 3 inputs)) := by
  unfold sessionTrace
  by_cases h1 : env.initStatus ≠ 200
  · left
    simp [h1]
  · right
    simp only [h1, if_false]
    cases hst : sessionTools env with
    | none => exact ⟨[.crash], rfl, Or.inl rfl⟩
    | some toolsJ =>
      by_cases ht : jsonTruthy toolsJ
      · simp only [ht, Bool.not_true, Bool.false_eq_true, if_false]
        cases hn : toolNamesOf toolsJ with
        | none => exact ⟨[.crash], rfl, Or.inl rfl⟩
        | some names =>
          cases toolsJ with
          | arr tools => exact ⟨_, rfl, Or.inr (Or.inr ⟨tools, names, rfl⟩)⟩
          | null => exact ⟨[.crash], rfl, Or.inl rfl⟩
          | bool b => exact ⟨[.crash], rfl, Or.inl rfl⟩
          | num n => exact ⟨[.crash], rfl, Or.inl rfl⟩
          | str s => exact ⟨[.crash], rfl, Or.inl rfl⟩
          | obj f => exact ⟨[.crash], rfl, Or.inl rfl⟩
      · simp only [ht, Bool.not_false, if_true]
        exact ⟨[.fail .noTools, .exit 0], rfl, Or.inr (Or.inl rfl)⟩

theorem oboPart_cases (u scope : String) (env : Env) (inputs : List IterInput) :
    (env.oboToken = none ∧
      oboPart u scope env inputs = [Ev.obo u [scope], .fail .oboFailed, .exit 1]) ∨
    (env.oboToken.isSome = true ∧
      oboPart u scope env inputs = Ev.obo u [scope] :: sessionTrace env inputs) := by
  unfold oboPart
  cases h : env.oboToken with
  | none => exact Or.inl ⟨rfl, rfl⟩
  | some tok => exact Or.inr ⟨rfl, rfl⟩

theorem mainTrace_cases (cfg : Config) (env : Env) (inputs : List IterInput) :
    mainTrace cfg env inputs = [.fail .config, .exit 1] ∨
    mainTrace cfg env inputs = [.fail .authError, .exit 1] ∨
    mainTrace cfg env inputs = [.fail .noCode, .exit 1] ∨
    (∃ code, env.acquireToken = none ∧
      mainTrace cfg env inputs = [.acquire code, .fail .acquireFailed, .exit 1]) ∨
    (∃ code d, cfg.mcpScope = "" ∧
      mainTrace cfg env inputs = [.acquire code, .metaFetch, .fail (.discovery d), .exit 1]) ∨
    (∃ code u scope,
      env.acquireToken = some u ∧
      ((cfg.mcpScope ≠ "" ∧ scope = cfg.mcpScope ∧
        mainTrace cfg env inputs = .acquire code :: oboPart u scope env inputs) ∨
       (cfg.mcpScope = "" ∧ discoverScope env.metaResponse = .ok scope ∧
        mainTrace cfg env inputs = .acquire code :: .metaFetch :: oboPart u scope env inputs))) := by
  unfold mainTrace
  by_cases h1 : configOk cfg
  · rw [if_neg (by simp [h1])]
    by_cases h2 : (bucketAfterWait env.callback).error.getD "" = ""
    · rw [if_neg (by simp [h2])]
      by_cases h3 : (bucketAfterWait env.callback).code.getD "" = ""
      · rw [if_pos (by simp [h3])]
        exact Or.inr (Or.inr (Or.inl rfl))
      · rw [if_neg (by simp [h3])]
        cases h4 : env.acquireToken with
        | none =>
          exact Or.inr (Or.inr (Or.inr (Or.inl ⟨_, rfl, rfl⟩)))
        | some u =>
          dsimp only
          by_cases h5 : cfg.mcpScope = ""
          · rw [if_neg (by simp [h5])]
            cases h6 : discoverScope env.metaResponse with
            | error d =>
              exact Or.inr (Or.inr (Or.inr (Or.inr (Or.inl ⟨_, d, h5, rfl⟩))))
            | ok scope =>
              exact Or.inr (Or.inr (Or.inr (Or.inr (Or.inr
                ⟨_, u, scope, rfl, Or.inr ⟨h5, rfl, rfl⟩⟩))))
          · rw [if_pos h5]
            exact Or.inr (Or.inr (Or.inr (Or.inr (Or.inr
              ⟨_, u, cfg.mcpScope, rfl, Or.inl ⟨h5, rfl, rfl⟩⟩))))
    · rw [if_pos (by simp [h2])]
      exact Or.inr (Or.inl rfl)
  · rw [if_pos (by simp [h1])]
    exact Or.inl rfl

theorem sessionTrace_head (env : Env) (inputs : List IterInput) :
    ∃ t, sessionTrace env inputs = .rpcPost 1 "initialize" :: t := ⟨_, rfl⟩

theorem sessionTrace_events (env : Env) (inputs : List IterInput) :
    ∀ e ∈ sessionTrace env inputs,
      e = .rpcPost 1 "initialize" ∨ e = .rpcPost 2 "tools/list" ∨
      (∃ i, e = .rpcPost i "tools/call") ∨ (∃ r, e = .fail r) ∨ (∃ n, e = .exit n) ∨
      (∃ le, e = .localErr le) ∨ e = .done ∨ e = .crash := by
  intro e he
  rcases sessionTrace_cases env inputs with h | ⟨tail, h, htail⟩
  · rw [h] at he
    simp only [List.mem_cons, List.not_mem_nil, or_false] at he
    rcases he with rfl | rfl | rfl
    · exact Or.inl rfl
    · exact Or.inr (Or.inr (Or.inr (Or.inl ⟨_, rfl⟩)))
    · exact Or.inr (Or.inr (Or.inr (Or.inr (Or.inl ⟨_, rfl⟩))))
  · rw [h] at he
    rcases List.mem_cons.mp he with rfl | he2
    · exact Or.inl rfl
    rcases List.mem_cons.mp he2 with rfl | he3
    · exact Or.inr (Or.inl rfl)
    rcases htail with rfl | rfl | ⟨tools, names, rfl⟩
    · simp only [List.mem_singleton] at he3
      subst he3
      exact Or.inr (Or.inr (Or.inr (Or.inr (Or.inr (Or.inr (Or.inr rfl))))))
    · simp only [List.mem_cons, List.not_mem_nil, or_false] at he3
      rcases he3 with rfl | rfl
      · exact Or.inr (Or.inr (Or.inr (Or.inl ⟨_, rfl⟩)))
      · exact Or.inr (Or.inr (Or.inr (Or.inr (Or.inl ⟨_, rfl⟩))))
    · rcases toolLoop_events tools names 3 inputs e he3 with ⟨i, rfl⟩ | ⟨le, rfl⟩ | rfl | rfl
      · exact Or.inr (Or.inr (Or.inl ⟨_, rfl⟩))
      · exact Or.inr (Or.inr (Or.inr (Or.inr (Or.inr (Or.inl ⟨_, rfl⟩)))))
      · exact Or.inr (Or.inr (Or.inr (Or.inr (Or.inr (Or.inr (Or.inl rfl))))))
      · exact Or.inr (Or.inr (Or.inr (Or.inr (Or.inr (Or.inr (Or.inr rfl))))))

theorem sessionTrace_no_amo (env : Env) (inputs : List IterInput) :
    ∀ e ∈ sessionTrace env inputs,
      isMetaFetchEv e = false ∧ isOboEv e = false ∧ isAcquireEv e = false := by
  intro e he
  rcases sessionTrace_events env inputs e he with
    rfl | rfl | ⟨i, rfl⟩ | ⟨r, rfl⟩ | ⟨n, rfl⟩ | ⟨le, rfl⟩ | rfl | rfl <;>
    exact ⟨rfl, rfl, rfl⟩
theorem sessionTrace_rpcIds (env : Env) (inputs : List IterInput) :
    ∃ m, rpcIds (sessionTrace env inputs) = List.range' 1 m := by
  rcases sessionTrace_cases env inputs with h | ⟨tail, h, htail⟩
  · rw [h]
    exact ⟨1, rfl⟩
  · rw [h]
    rcases htail with rfl | rfl | ⟨tools, names, rfl⟩
    · exact ⟨2, rfl⟩
    · exact ⟨2, rfl⟩
    · obtain ⟨m, hm⟩ := toolLoop_rpcIds tools names inputs 3
      refine ⟨m + 2, ?_⟩
      simp only [rpcIds, List.filterMap_cons] at hm ⊢
      rw [hm]
      rw [show List.range' 1 (m + 2) = 1 :: List.range' 2 (m + 1) from rfl,
        show List.range' 2 (m + 1) = 2 :: List.range' 3 m from rfl]

theorem sessionTrace_callIds (env : Env) (inputs : List IterInput) :
    ∃ m, callIds (sessionTrace env inputs) = List.range' 3 m := by
  rcases sessionTrace_cases env inputs with h | ⟨tail, h, htail⟩
  · rw [h]
    exact ⟨0, rfl⟩
  · rw [h]
    rcases htail with rfl | rfl | ⟨tools, names, rfl⟩
    · exact ⟨0, rfl⟩
    · exact ⟨0, rfl⟩
    · obtain ⟨m, hm⟩ := toolLoop_callIds tools names inputs 3
      refine ⟨m, ?_⟩
      simpa [callIds, List.filterMap_cons] using hm

theorem sessionTrace_method_ids (env : Env) (inputs : List IterInput) :
    (∀ i, Ev.rpcPost i "initialize" ∈ sessionTrace env inputs → i = 1) ∧
    (∀ i, Ev.rpcPost i "tools/list" ∈ sessionTrace env inputs → i = 2) := by
  constructor <;> intro i hi
  all_goals have hev := sessionTrace_events env inputs _ hi
  all_goals simp at hev
  all_goals omega

/-! ## C9: bounded wait, explicit timeout failure -/

/-- C9: when no callback is delivered within the 300-second bound (or one
arrives only after it), the run prints the explicit timeout diagnostic and
exits — the trace is exactly the failure and the exit, so nothing hangs and
a late redirect never rescues the run. -/
theorem C9_timeout_failure (cfg : Config) (env : Env) (inputs : List IterInput)
    (hcfg : configOk cfg = true)
    (hlate : ∀ t p, env.callback = some (t, p) → 300 < t) :
    mainTrace cfg env inputs = [.fail .noCode, .exit 1] := by
  have hbucket : bucketAfterWait env.callback = emptyBucket := by
    cases hc : env.callback with
    | none => rfl
    | some tp =>
      obtain ⟨t, p⟩ := tp
      have hlt := hlate t p hc
      simp only [bucketAfterWait]
      rw [if_neg (by omega)]
  unfold mainTrace
  rw [if_neg (by simp [hcfg]), hbucket]
  rw [if_neg (by simp [emptyBucket]), if_pos (by simp [emptyBucket])]

theorem C9_timeout_failure_witness :
    mainTrace cfgWithScope
      { envHappy with callback := some (301, .ok (some "AUTHCODE") none) } [] =
      [.fail .noCode, .exit 1] :=
  C9_timeout_failure _ _ _ (by decide)
    (by
      rintro t p h
      simp only [Option.some_inj, Prod.mk.injEq] at h
      omega)

/-! ## C7: explicit scope skips discovery -/

/-- C7: whenever `MCP_SCOPE` is configured non-empty, no metadata fetch
happens in any run, and every OBO exchange uses exactly the configured
scope. -/
theorem C7_explicit_scope_skips_discovery (cfg : Config) (env : Env)
    (inputs : List IterInput) (h : cfg.mcpScope ≠ "") :
    (∀ e ∈ mainTrace cfg env inputs, isMetaFetchEv e = false) ∧
    (∀ u s, Ev.obo u s ∈ mainTrace cfg env inputs → s = [cfg.mcpScope]) := by
  rcases mainTrace_cases cfg env inputs with
    ht | ht | ht | ⟨code, hacq, ht⟩ | ⟨code, d, hscope, ht⟩ |
    ⟨code, u, scope, hacq, ⟨hne, hsc, ht⟩ | ⟨heq, _, _⟩⟩
  · constructor
    · intro e he
      rw [ht] at he
      simp only [List.mem_cons, List.not_mem_nil, or_false] at he
      rcases he with rfl | rfl <;> rfl
    · intro u s hu
      rw [ht] at hu
      simp at hu
  · constructor
    · intro e he
      rw [ht] at he
      simp only [List.mem_cons, List.not_mem_nil, or_false] at he
      rcases he with rfl | rfl <;> rfl
    · intro u s hu
      rw [ht] at hu
      simp at hu
  · constructor
    · intro e he
      rw [ht] at he
      simp only [List.mem_cons, List.not_mem_nil, or_false] at he
      rcases he with rfl | rfl <;> rfl
    · intro u s hu
      rw [ht] at hu
      simp at hu
  · constructor
    · intro e he
      rw [ht] at he
      simp only [List.mem_cons, List.not_mem_nil, or_false] at he
      rcases he with rfl | rfl | rfl <;> rfl
    · intro u s hu
      rw [ht] at hu
      simp at hu
  · exact absurd hscope h
  · subst hsc
    rcases oboPart_cases u cfg.mcpScope env inputs with ⟨hobo, hop⟩ | ⟨hobo, hop⟩
    · rw [hop] at ht
      constructor
      · intro e he
        rw [ht] at he
        simp only [List.mem_cons, List.not_mem_nil, or_false] at he
        rcases he with rfl | rfl | rfl | rfl <;> rfl
      · intro u2 s hu
        rw [ht] at hu
        simp at hu
        exact hu.2
    · rw [hop] at ht
      constructor
      · intro e he
        rw [ht] at he
        rcases List.mem_cons.mp he with rfl | he2
        · rfl
        rcases List.mem_cons.mp he2 with rfl | he3
        · rfl
        · exact (sessionTrace_no_amo env inputs e he3).1
      · intro u2 s hu
        rw [ht] at hu
        cases List.mem_cons.mp hu with
        | inl hh => cases hh
        | inr hu2 =>
          cases List.mem_cons.mp hu2 with
          | inl hh =>
            first
            | (injection hh with h1 h2; exact h2)
            | injection hh with h1 h2
          | inr hu3 =>
            exact absurd (sessionTrace_no_amo env inputs _ hu3).2.1 (by simp [isOboEv])
  · exact absurd heq h

theorem C7_explicit_scope_skips_discovery_witness :
    (∀ e ∈ mainTrace cfgWithScope envHappy [], isMetaFetchEv e = false) ∧
    (∀ u s, Ev.obo u s ∈ mainTrace cfgWithScope envHappy [] →
      s = [cfgWithScope.mcpScope]) :=
  C7_explicit_scope_skips_discovery cfgWithScope envHappy [] (by decide)

/-! ## C1: ordering of acquire, OBO, and RPC -/

/-- C1 counterexample: when the token result carries an *empty*
`access_token` (the key is present, so the script's `"access_token" not in
result` check passes), the OBO exchange is still invoked — with the empty
string as user assertion.  This refutes the claim's "non-empty" part. -/
theorem C1_counterexample :
    envEmptyToken.acquireToken = some "" ∧
    Ev.obo "" [cfgWithScope.mcpScope] ∈ mainTrace cfgWithScope envEmptyToken [] := by
  exact ⟨rfl, by decide⟩

/-- C1 (amended): in every run, the OBO exchange is only invoked with the
access token the user-token acquisition returned (the key was present,
though possibly empty), the acquisition event precedes it, and any JSON-RPC
call happens only after an OBO exchange that returned an access token, with
the exchange strictly before the first RPC. -/
theorem C1_amended_obo_order (cfg : Config) (env : Env) (inputs : List IterInput) :
    (∀ u s, Ev.obo u s ∈ mainTrace cfg env inputs → env.acquireToken = some u) ∧
    ((∃ e ∈ mainTrace cfg env inputs, isRpcEv e = true) →
      env.oboToken.isSome = true ∧
      (mainTrace cfg env inputs).findIdx isAcquireEv <
        (mainTrace cfg env inputs).findIdx isOboEv ∧
      (mainTrace cfg env inputs).findIdx isOboEv <
        (mainTrace cfg env inputs).findIdx isRpcEv) := by
  rcases mainTrace_cases cfg env inputs with
    ht | ht | ht | ⟨code, hacq, ht⟩ | ⟨code, d, hscope, ht⟩ |
    ⟨code, u, scope, hacq, ⟨hne, hsc, ht⟩ | ⟨heq, hdisc, ht⟩⟩
  -- the four plain failure branches and the discovery-failure branch
  case inl | inr.inl | inr.inr.inl =>
    constructor
    · intro u s hu
      rw [ht] at hu
      simp at hu
    · rintro ⟨e, he, hrpc⟩
      rw [ht] at he
      simp only [List.mem_cons, List.not_mem_nil, or_false] at he
      rcases he with rfl | rfl <;> cases hrpc
  case inr.inr.inr.inl =>
    constructor
    · intro u s hu
      rw [ht] at hu
      simp at hu
    · rintro ⟨e, he, hrpc⟩
      rw [ht] at he
      simp only [List.mem_cons, List.not_mem_nil, or_false] at he
      rcases he with rfl | rfl | rfl <;> cases hrpc
  case inr.inr.inr.inr.inl =>
    constructor
    · intro u s hu
      rw [ht] at hu
      simp at hu
    · rintro ⟨e, he, hrpc⟩
      rw [ht] at he
      simp only [List.mem_cons, List.not_mem_nil, or_false] at he
      rcases he with rfl | rfl | rfl | rfl <;> cases hrpc
  -- MCP_SCOPE set: acquire :: oboPart
  case inr.inr.inr.inr.inr.intro.intro.intro.intro.inl.intro.intro =>
    rcases oboPart_cases u scope env inputs with ⟨hobo, hop⟩ | ⟨hobo, hop⟩ <;> rw [hop] at ht
    · constructor
      · intro u2 s hu
        rw [ht] at hu
        simp only [List.mem_cons, List.not_mem_nil, or_false] at hu
        rcases hu with hu | hu | hu | hu
        · cases hu
        · injection hu with h1 h2
          rw [h1, hacq]
        · cases hu
        · cases hu
      · rintro ⟨e, he, hrpc⟩
        rw [ht] at he
        simp only [List.mem_cons, List.not_mem_nil, or_false] at he
        rcases he with rfl | rfl | rfl | rfl <;> cases hrpc
    · constructor
      · intro u2 s hu
        rw [ht] at hu
        cases List.mem_cons.mp hu with
        | inl hh => cases hh
        | inr hu2 =>
          cases List.mem_cons.mp hu2 with
          | inl hh =>
            injection hh with h1 h2
            rw [h1, hacq]
          | inr hu3 =>
            exact absurd (sessionTrace_no_amo env inputs _ hu3).2.1 (by simp [isOboEv])
      · rintro ⟨e, he, hrpc⟩
        refine ⟨hobo, ?_⟩
        obtain ⟨t3, ht3⟩ := sessionTrace_head env inputs
        rw [ht, ht3]
        simp [List.findIdx_cons, isAcquireEv, isOboEv, isRpcEv]
  -- discovery path: acquire :: metaFetch :: oboPart
  case inr.inr.inr.inr.inr.intro.intro.intro.intro.inr.intro.intro =>
    rcases oboPart_cases u scope env inputs with ⟨hobo, hop⟩ | ⟨hobo, hop⟩ <;> rw [hop] at ht
    · constructor
      · intro u2 s hu
        rw [ht] at hu
        simp only [List.mem_cons, List.not_mem_nil, or_false] at hu
        rcases hu with hu | hu | hu | hu | hu
        · cases hu
        · cases hu
        · injection hu with h1 h2
          rw [h1, hacq]
        · cases hu
        · cases hu
      · rintro ⟨e, he, hrpc⟩
        rw [ht] at he
        simp only [List.mem_cons, List.not_mem_nil, or_false] at he
        rcases he with rfl | rfl | rfl | rfl | rfl <;> cases hrpc
    · constructor
      · intro u2 s hu
        rw [ht] at hu
        cases List.mem_cons.mp hu with
        | inl hh => cases hh
        | inr hu2 =>
          cases List.mem_cons.mp hu2 with
          | inl hh => cases hh
          | inr hu3 =>
            cases List.mem_cons.mp hu3 with
            | inl hh =>
              injection hh with h1 h2
              rw [h1, hacq]
            | inr hu4 =>
              exact absurd (sessionTrace_no_amo env inputs _ hu4).2.1 (by simp [isOboEv])
      · rintro ⟨e, he, hrpc⟩
        refine ⟨hobo, ?_⟩
        obtain ⟨t3, ht3⟩ := sessionTrace_head env inputs
        rw [ht, ht3]
        simp [List.findIdx_cons, isAcquireEv, isOboEv, isRpcEv]

theorem C1_amended_obo_order_witness :
    envHappy.acquireToken = some "USERTOKEN" ∧ envHappy.oboToken.isSome = true :=
  ⟨(C1_amended_obo_order cfgWithScope envHappy []).1 "USERTOKEN"
      [cfgWithScope.mcpScope] (by decide),
   ((C1_amended_obo_order cfgWithScope envHappy []).2
      ⟨Ev.rpcPost 1 "initialize", by decide, rfl⟩).1⟩

/-! ## C5: request ids -/

theorem mainTrace_rpcIds_range (cfg : Config) (env : Env) (inputs : List IterInput) :
    ∃ m, rpcIds (mainTrace cfg env inputs) = List.range' 1 m := by
  rcases mainTrace_cases cfg env inputs with
    ht | ht | ht | ⟨code, hacq, ht⟩ | ⟨code, d, hscope, ht⟩ |
    ⟨code, u, scope, hacq, ⟨hne, hsc, ht⟩ | ⟨heq, hdisc, ht⟩⟩ <;>
    rw [ht]
  · exact ⟨0, rfl⟩
  · exact ⟨0, rfl⟩
  · exact ⟨0, rfl⟩
  · exact ⟨0, rfl⟩
  · exact ⟨0, rfl⟩
  · rcases oboPart_cases u scope env inputs with ⟨hobo, hop⟩ | ⟨hobo, hop⟩ <;> rw [hop]
    · exact ⟨0, rfl⟩
    · obtain ⟨m, hm⟩ := sessionTrace_rpcIds env inputs
      refine ⟨m, ?_⟩
      simp only [rpcIds, List.filterMap_cons] at hm ⊢
      exact hm
  · rcases oboPart_cases u scope env inputs with ⟨hobo, hop⟩ | ⟨hobo, hop⟩ <;> rw [hop]
    · exact ⟨0, rfl⟩
    · obtain ⟨m, hm⟩ := sessionTrace_rpcIds env inputs
      refine ⟨m, ?_⟩
      simp only [rpcIds, List.filterMap_cons] at hm ⊢
      exact hm

theorem mainTrace_callIds_range (cfg : Config) (env : Env) (inputs : List IterInput) :
    ∃ m, callIds (mainTrace cfg env inputs) = List.range' 3 m := by
  rcases mainTrace_cases cfg env inputs with
    ht | ht | ht | ⟨code, hacq, ht⟩ | ⟨code, d, hscope, ht⟩ |
    ⟨code, u, scope, hacq, ⟨hne, hsc, ht⟩ | ⟨heq, hdisc, ht⟩⟩ <;>
    rw [ht]
  · exact ⟨0, rfl⟩
  · exact ⟨0, rfl⟩
  · exact ⟨0, rfl⟩
  · exact ⟨0, rfl⟩
  · exact ⟨0, rfl⟩
  · rcases oboPart_cases u scope env inputs with ⟨hobo, hop⟩ | ⟨hobo, hop⟩ <;> rw [hop]
    · exact ⟨0, rfl⟩
    · obtain ⟨m, hm⟩ := sessionTrace_callIds env inputs
      refine ⟨m, ?_⟩
      simp only [callIds, List.filterMap_cons] at hm ⊢
      exact hm
  · rcases oboPart_cases u scope env inputs with ⟨hobo, hop⟩ | ⟨hobo, hop⟩ <;> rw [hop]
    · exact ⟨0, rfl⟩
    · obtain ⟨m, hm⟩ := sessionTrace_callIds env inputs
      refine ⟨m, ?_⟩
      simp only [callIds, List.filterMap_cons] at hm ⊢
      exact hm

theorem mainTrace_method_ids (cfg : Config) (env : Env) (inputs : List IterInput) :
    (∀ i, Ev.rpcPost i "initialize" ∈ mainTrace cfg env inputs → i = 1) ∧
    (∀ i, Ev.rpcPost i "tools/list" ∈ mainTrace cfg env inputs → i = 2) := by
  rcases mainTrace_cases cfg env inputs with
    ht | ht | ht | ⟨code, hacq, ht⟩ | ⟨code, d, hscope, ht⟩ |
    ⟨code, u, scope, hacq, ⟨hne, hsc, ht⟩ | ⟨heq, hdisc, ht⟩⟩ <;>
    constructor <;> intro i hi <;> rw [ht] at hi
  case inr.inr.inr.inr.inr.intro.intro.intro.intro.inl.intro.intro.left =>
    rcases oboPart_cases u scope env inputs with ⟨hobo, hop⟩ | ⟨hobo, hop⟩ <;> rw [hop] at hi
    · simp at hi
    · simp only [List.mem_cons] at hi
      rcases hi with hi | hi | hi
      · cases hi
      · cases hi
      · exact (sessionTrace_method_ids env inputs).1 i hi
  case inr.inr.inr.inr.inr.intro.intro.intro.intro.inl.intro.intro.right =>
    rcases oboPart_cases u scope env inputs with ⟨hobo, hop⟩ | ⟨hobo, hop⟩ <;> rw [hop] at hi
    · simp at hi
    · simp only [List.mem_cons] at hi
      rcases hi with hi | hi | hi
      · cases hi
      · cases hi
      · exact (sessionTrace_method_ids env inputs).2 i hi
  case inr.inr.inr.inr.inr.intro.intro.intro.intro.inr.intro.intro.left =>
    rcases oboPart_cases u scope env inputs with ⟨hobo, hop⟩ | ⟨hobo, hop⟩ <;> rw [hop] at hi
    · simp at hi
    · simp only [List.mem_cons] at hi
      rcases hi with hi | hi | hi | hi
      · cases hi
      · cases hi
      · cases hi
      · exact (sessionTrace_method_ids env inputs).1 i hi
  case inr.inr.inr.inr.inr.intro.intro.intro.intro.inr.intro.intro.right =>
    rcases oboPart_cases u scope env inputs with ⟨hobo, hop⟩ | ⟨hobo, hop⟩ <;> rw [hop] at hi
    · simp at hi
    · simp only [List.mem_cons] at hi
      rcases hi with hi | hi | hi | hi
      · cases hi
      · cases hi
      · cases hi
      · exact (sessionTrace_method_ids env inputs).2 i hi
  all_goals simp at hi

/-- C5: across a session the JSON-RPC ids are exactly `1, 2, 3, ...` in
wire order: `initialize` is id 1, `tools/list` id 2, the `tools/call`
requests get `3, 4, ...` in order, and no id repeats. -/
theorem C5_request_ids (cfg : Config) (env : Env) (inputs : List IterInput) :
    rpcIds (mainTrace cfg env inputs) =
      List.range' 1 (rpcIds (mainTrace cfg env inputs)).length ∧
    (rpcIds (mainTrace cfg env inputs)).Nodup ∧
    (∀ i, Ev.rpcPost i "initialize" ∈ mainTrace cfg env inputs → i = 1) ∧
    (∀ i, Ev.rpcPost i "tools/list" ∈ mainTrace cfg env inputs → i = 2) ∧
    callIds (mainTrace cfg env inputs) =
      List.range' 3 (callIds (mainTrace cfg env inputs)).length := by
  obtain ⟨m, hm⟩ := mainTrace_rpcIds_range cfg env inputs
  obtain ⟨m2, hm2⟩ := mainTrace_callIds_range cfg env inputs
  refine ⟨?_, ?_, (mainTrace_method_ids cfg env inputs).1,
    (mainTrace_method_ids cfg env inputs).2, ?_⟩
  · rw [hm, List.length_range']
  · rw [hm]
    exact List.nodup_range' _ _
  · rw [hm2, List.length_range']

theorem C5_request_ids_witness :
    rpcIds (mainTrace cfgWithScope envHappy [⟨"echo", ["hi"]⟩, ⟨"nope", []⟩, ⟨"echo", ["x"]⟩]) =
      List.range' 1 (rpcIds (mainTrace cfgWithScope envHappy
        [⟨"echo", ["hi"]⟩, ⟨"nope", []⟩, ⟨"echo", ["x"]⟩])).length ∧
    rpcIds (mainTrace cfgWithScope envHappy [⟨"echo", ["hi"]⟩, ⟨"nope", []⟩, ⟨"echo", ["x"]⟩]) =
      [1, 2, 3, 4] ∧
    (1 : Nat) = 1 :=
  ⟨(C5_request_ids cfgWithScope envHappy _).1, by decide,
   (C5_request_ids cfgWithScope envHappy
      [⟨"echo", ["hi"]⟩, ⟨"nope", []⟩, ⟨"echo", ["x"]⟩]).2.2.1 1 (by decide)⟩

/-! ## C6: scope discovery -/

/-- C6: scope discovery filters out the generic identity scopes
(`openid`, `profile`, `email`, `offline_access`) and returns the first
remaining entry as the downstream scope (in particular, from
`["openid","profile","custom.scope"]` it resolves `custom.scope`); it
fails fatally on a non-200 HTTP status and when no scope remains after
filtering. -/
theorem C6_scope_discovery (status : Nat) (scopes : List String) :
    (status ≠ 200 → discoverScope (some (status, scopes)) = .error (.status status)) ∧
    (status = 200 → scopes.filter (fun s => !genericScope s) = [] →
      discoverScope (some (status, scopes)) = .error .noApiScopes) ∧
    (status = 200 → ∀ s rest, scopes.filter (fun s => !genericScope s) = s :: rest →
      discoverScope (some (status, scopes)) = .ok s) ∧
    discoverScope (some (200, ["openid", "profile", "custom.scope"])) = .ok "custom.scope" := by
  refine ⟨?_, ?_, ?_, rfl⟩
  · intro h
    simp [discoverScope, h]
  · intro h hf
    subst h
    simp [discoverScope, hf]
  · intro h s rest hf
    subst h
    simp [discoverScope, hf]

theorem C6_scope_discovery_witness :
    discoverScope (some (404, ["a"])) = .error (.status 404) ∧
    discoverScope (some (200, ["openid"])) = .error .noApiScopes ∧
    discoverScope (some (200, ["openid", "profile", "custom.scope"])) = .ok "custom.scope" :=
  ⟨(C6_scope_discovery 404 ["a"]).1 (by decide),
   (C6_scope_discovery 200 ["openid"]).2.1 rfl (by decide),
   (C6_scope_discovery 200 ["openid", "profile", "custom.scope"]).2.2.1 rfl
     "custom.scope" [] (by decide)⟩

/-! ## C8: unknown tool names are rejected locally -/

/-- C8: a tool name entered at the prompt that is not a quit word, not a
numeric selection, and absent from the name list built from the prior
`tools/list` response, fails locally with an unknown-tool error: the loop
emits no `tools/call` request for that input (the request-id counter does
not even advance) and proceeds to the next input. -/
theorem C8_unknown_tool (tools : JsonList) (toolNames : List Json) (k : Nat)
    (choice : String) (vals : List String) (rest : List IterInput)
    (hq1 : pyLower (pyStripS choice) ≠ "quit")
    (hq2 : pyLower (pyStripS choice) ≠ "exit")
    (hq3 : pyLower (pyStripS choice) ≠ "q")
    (hq4 : pyLower (pyStripS choice) ≠ "")
    (hd : pyIsDigit (pyStripS choice) = false)
    (hn : jsonMem (strJ (pyStripS choice)) toolNames = false) :
    toolLoop tools toolNames k (⟨choice, vals⟩ :: rest) =
      Ev.localErr .unknownTool :: toolLoop tools toolNames k rest := by
  have hstep : iterStep tools toolNames ⟨choice, vals⟩ = .localErr .unknownTool := by
    simp only [iterStep]
    rw [if_neg (by simp [hq1, hq2, hq3, hq4]), if_neg (by simp [hd])]
    simp only [iterStepNamed]
    rw [if_pos (by simp [hn])]
  rw [toolLoop, hstep]

theorem C8_unknown_tool_witness :
    toolLoop toolsEcho namesEcho 3 [⟨"nope", []⟩] = [Ev.localErr .unknownTool] := by
  rw [C8_unknown_tool toolsEcho namesEcho 3 "nope" [] []
    (by decide) (by decide) (by decide) (by decide) (by decide) (by decide)]
  rfl

/-! ## C2: argument validation -/

/-- C2 counterexample: tool `echo` declares parameter `x` as required,
the user supplies an empty value for it — yet the call is *not* rejected
locally: the argument dict `{"x": ""}` is built (line 341 of the source
only skips empty values for parameters *not* in `required`) and the
`tools/call` request is sent over the network. -/
theorem C2_counterexample :
    iterStep toolsEcho namesEcho ⟨"echo", [""]⟩ =
      .send (strJ "echo") (.obj (.cons "x".toList (strJ "") .nil)) ∧
    toolLoop toolsEcho namesEcho 3 [⟨"echo", [""]⟩] = [Ev.rpcPost 3 "tools/call"] :=
  ⟨rfl, rfl⟩

theorem buildArgs_total : ∀ (props : JsonFields) (required : List Json)
    (vals : List String), allInfoObj props = true →
    ∃ args, buildArgs props required vals = some args
  | .nil, _, _, _ => ⟨.nil, rfl⟩
  | .cons pname pinfo rest, required, vals, h => by
    simp only [allInfoObj, Bool.and_eq_true] at h
    obtain ⟨hobj, hrest⟩ := h
    obtain ⟨args, hargs⟩ := buildArgs_total rest required vals.tail hrest
    cases pinfo with
    | obj fields =>
      simp only [buildArgs, jsonGetD, Option.some_bind, Option.bind_eq_bind]
      split
      · exact ⟨args, hargs⟩
      · rw [hargs]
        exact ⟨_, rfl⟩
    | null => cases hobj
    | bool b => cases hobj
    | num n => cases hobj
    | str s => cases hobj
    | arr l => cases hobj

theorem buildArgs_all_empty : ∀ (props : JsonFields) (required : List Json)
    (vals : List String), allInfoObj props = true →
    (∀ v ∈ vals, pyStripS v = "") →
    (∀ kk ∈ fieldKeys props, jsonMem (.str kk) required = false) →
    buildArgs props required vals = some .nil
  | .nil, _, _, _, _, _ => rfl
  | .cons pname pinfo rest, required, vals, h, hvals, hks => by
    simp only [allInfoObj, Bool.and_eq_true] at h
    obtain ⟨hobj, hrest⟩ := h
    have hval : pyStripS (vals.head?.getD "") = "" := by
      cases vals with
      | nil => rfl
      | cons v vs => exact hvals v (by simp)
    have hk : jsonMem (.str pname) required = false := hks pname (by simp [fieldKeys])
    have htail : ∀ v ∈ vals.tail, pyStripS v = "" := by
      intro v hv
      cases vals with
      | nil => cases hv
      | cons w ws => exact hvals v (by simp at hv ⊢; exact Or.inr hv)
    cases pinfo with
    | obj fields =>
      simp only [buildArgs, jsonGetD, Option.some_bind, Option.bind_eq_bind]
      rw [if_pos (by simp [hval, hk])]
      exact buildArgs_all_empty rest required vals.tail hrest htail
        (fun kk hkk => hks kk (by simp [fieldKeys, hkk]))
    | null => cases hobj
    | bool b => cases hobj
    | num n => cases hobj
    | str s => cases hobj
    | arr l => cases hobj

theorem toolLoop_known_sends (tools : JsonList) (toolNames : List Json) (k : Nat)
    (choice : String) (vals : List String) (rest : List IterInput) (toolDef args : Json)
    (hq1 : pyLower (pyStripS choice) ≠ "quit")
    (hq2 : pyLower (pyStripS choice) ≠ "exit")
    (hq3 : pyLower (pyStripS choice) ≠ "q")
    (hq4 : pyLower (pyStripS choice) ≠ "")
    (hd : pyIsDigit (pyStripS choice) = false)
    (hn : jsonMem (strJ (pyStripS choice)) toolNames = true)
    (hf : findTool tools (strJ (pyStripS choice)) = some toolDef)
    (hp : prepArgs toolDef vals = some args) :
    iterStep tools toolNames ⟨choice, vals⟩ = .send (strJ (pyStripS choice)) args ∧
    toolLoop tools toolNames k (⟨choice, vals⟩ :: rest) =
      Ev.rpcPost k "tools/call" :: toolLoop tools toolNames (k + 1) rest := by
  have hstep : iterStep tools toolNames ⟨choice, vals⟩ = .send (strJ (pyStripS choice)) args := by
    simp only [iterStep]
    rw [if_neg (by simp [hq1, hq2, hq3, hq4]), if_neg (by simp [hd])]
    simp only [iterStepNamed]
    rw [if_neg (by simp [hn])]
    simp only [hf, hp]
  exact ⟨hstep, by rw [toolLoop, hstep]⟩

/-- C2 (amended): the script performs no local validation of required
parameters — collecting arguments always succeeds for a well-formed schema
(conjunct 1: even when every required parameter gets an empty value), a
parameter not listed as `required` whose supplied value strips to empty is
omitted (conjunct 2: all-optional empty prompts give the empty argument
dict), and for a known tool the `tools/call` request is then sent
unconditionally (conjunct 3). -/
theorem C2_amended_no_local_validation :
    (∀ (props : JsonFields) (required : List Json) (vals : List String),
      allInfoObj props = true → ∃ args, buildArgs props required vals = some args) ∧
    (∀ (props : JsonFields) (required : List Json) (vals : List String),
      allInfoObj props = true → (∀ v ∈ vals, pyStripS v = "") →
      (∀ kk ∈ fieldKeys props, jsonMem (.str kk) required = false) →
      buildArgs props required vals = some .nil) ∧
    (∀ (tools : JsonList) (toolNames : List Json) (k : Nat) (choice : String)
      (vals : List String) (rest : List IterInput) (toolDef args : Json),
      pyLower (pyStripS choice) ≠ "quit" → pyLower (pyStripS choice) ≠ "exit" →
      pyLower (pyStripS choice) ≠ "q" → pyLower (pyStripS choice) ≠ "" →
      pyIsDigit (pyStripS choice) = false →
      jsonMem (strJ (pyStripS choice)) toolNames = true →
      findTool tools (strJ (pyStripS choice)) = some toolDef →
      prepArgs toolDef vals = some args →
      toolLoop tools toolNames k (⟨choice, vals⟩ :: rest) =
        Ev.rpcPost k "tools/call" :: toolLoop tools toolNames (k + 1) rest) :=
  ⟨buildArgs_total, buildArgs_all_empty,
   fun tools toolNames k choice vals rest toolDef args h1 h2 h3 h4 h5 h6 h7 h8 =>
     (toolLoop_known_sends tools toolNames k choice vals rest toolDef args
       h1 h2 h3 h4 h5 h6 h7 h8).2⟩

theorem C2_amended_no_local_validation_witness :
    (∃ args, buildArgs propsEchoX [strJ "x"] [""] = some args) ∧
    buildArgs propsEchoX [] [""] = some .nil ∧
    toolLoop toolsEcho namesEcho 3 [⟨"echo", ["hi"]⟩] = [Ev.rpcPost 3 "tools/call"] := by
  refine ⟨C2_amended_no_local_validation.1 propsEchoX [strJ "x"] [""] (by decide),
    C2_amended_no_local_validation.2.1 propsEchoX [] [""] (by decide)
      (by decide) (by decide), ?_⟩
  rw [C2_amended_no_local_validation.2.2 toolsEcho namesEcho 3 "echo" ["hi"] []
    toolDefEcho (.obj (.cons "x".toList (strJ "hi") .nil))
    (by decide) (by decide) (by decide) (by decide) (by decide) (by decide) rfl rfl]
  rfl
